import Mathlib

/-!
Verification of the resilient multi-provider retrieval layer of the
ai-hedge-fund repository (src/src/tools/api.py) and of the signal
aggregation helper (src/app/backend/routes/n8n_analyze.py).

Shallow embedding conventions:
* JSON numbers are rationals, JSON strings are Lean strings; JSON objects
  are association lists (type Dict below).  JSON null values and values of
  a type the surrounding code would crash on are modelled as absent keys;
  no theorem below exercises those cases.
* Network calls are modelled at the request boundary: an environment value
  records, per request (and per retry attempt where the code retries), the
  outcome the remote side produced.  A transport-level exception raised by
  the requests library (timeout, connection error) is the PyResp.exn case.
* The while-loops of the paginated getters are modelled with an explicit
  fuel argument; a result of none means the source loop has not terminated
  within that many iterations.
* Wall-clock sleeping is modelled by recording the requested delays.
-/

namespace HedgeFund

/-- A JSON scalar as it appears in the provider responses used by api.py. -/
inductive JVal where
  | num (q : ℚ)
  | str (s : String)
deriving DecidableEq, Repr

/-- A JSON object: an association list from field names to scalars. -/
abbrev Dict := List (String × JVal)

/-- Python d.get(k): some value when the key is present, none when absent
(JSON null is modelled as an absent key, see the file header). -/
def pyGet (d : Dict) (k : String) : Option JVal :=
  (d.find? (fun p => p.1 == k)).map (fun p => p.2)

/-- Python d.get(k, dflt) for a numeric default, as used on numeric fields:
the default when the key is absent or the stored value is not a number. -/
def pyGetNumD (d : Dict) (k : String) (dflt : ℚ) : ℚ :=
  match pyGet d k with
  | some (.num q) => q
  | _ => dflt

/-- Python d.get(k, dflt) for a string default, as used on string fields. -/
def pyGetStrD (d : Dict) (k : String) (dflt : String) : String :=
  match pyGet d k with
  | some (.str s) => s
  | _ => dflt

/-- Python truthiness of an optional JSON scalar: None, 0 and "" are falsy. -/
def truthy : Option JVal → Bool
  | none => false
  | some (.num q) => decide (q ≠ 0)
  | some (.str s) => s ≠ ""

/-- Python a or b on optional JSON scalars: a when a is truthy, else b. -/
def pyOr (a b : Option JVal) : Option JVal :=
  if truthy a then a else b

/-- The first truthy element of a candidate list; when no candidate is
truthy the last candidate (possibly none) is the value, mirroring a chain
of Python or expressions. -/
def firstTruthy : List (Option JVal) → Option JVal
  | [] => none
  | [a] => a
  | a :: rest => if truthy a then a else firstTruthy rest

/-- The first present (non-null) element of a candidate list.  This is the
field-mapping rule in the words of the spec (first present, non-null value
of an ordered candidate list); it is compared against the code. -/
def firstNonNull : List (Option JVal) → Option JVal
  | [] => none
  | a :: rest => if a.isSome then a else firstNonNull rest

/-- Lexicographic comparison of character lists by code point. -/
def charListLt : List Char → List Char → Bool
  | _, [] => false
  | [], _ :: _ => true
  | a :: as, b :: bs =>
    if a < b then true
    else if b < a then false
    else charListLt as bs

/-- Python a < b on strings: lexicographic by code point.  Defined over
the character lists so that concrete instances reduce inside the kernel
(the library order on String is not kernel-reducible). -/
def strLt (a b : String) : Bool := charListLt a.data b.data

/-- Python a <= b on strings: the negation of b < a under the total
lexicographic order. -/
def strLe (a b : String) : Bool := !strLt b a

/-- Modelled from the spec: CacheStore, an exact-match key-to-value store
(src/data/cache.py is not among the provided sources; the spec specifies
get/set semantics with exact string matching).  Lookup. -/
def cacheGet {α : Type} (c : List (String × α)) (k : String) : Option α :=
  (c.find? (fun p => p.1 == k)).map (fun p => p.2)

/-- Modelled from the spec: CacheStore write; set replaces the value stored
for the key. -/
def cacheSet {α : Type} (c : List (String × α)) (k : String) (v : α) :
    List (String × α) :=
  (k, v) :: c.filter (fun p => p.1 != k)

theorem cacheGet_cacheSet {α : Type} (c : List (String × α)) (k : String)
    (v : α) : cacheGet (cacheSet c k v) k = some v := by
  simp [cacheGet, cacheSet, List.find?]

theorem cacheGet_cacheSet_ne {α : Type} (c : List (String × α))
    (k k' : String) (v : α) (h : k ≠ k') :
    cacheGet (cacheSet c k v) k' = cacheGet c k' := by
  unfold cacheGet cacheSet
  rw [List.find?_cons_of_neg _ (by simpa using h)]
  congr 1
  induction c with
  | nil => rfl
  | cons p rest ih =>
    by_cases hp : p.1 = k
    · have hkk : (k == k') = false := by simpa using h
      simp [List.filter_cons, List.find?_cons, hp, hkk, ih]
    · have h1 : (p.1 != k) = true := by simp [hp]
      simp only [List.filter_cons, h1, if_true, List.find?_cons]
      cases hpk : (p.1 == k') with
      | true => rfl
      | false => simpa using ih

/-! ### Finnhub key rotation (api.py lines 29-44) -/

/-- The three-entry Finnhub key pool (the environment-variable defaults of
api.py lines 29-33). -/
def FINNHUB_KEYS : List String :=
  ["d5ds64pr01qjucj3o7qgd5ds64pr01qjucj3o7r0",
   "d5gpdbhr01qll3djrib0d5gpdbhr01qll3djribg",
   "d5gpet9r01qll3djrshgd5gpet9r01qll3djrsi0"]

/-- api.py lines 39-44: read FINNHUB_KEYS[index mod len], then increment the
shared index.  The pool is a parameter so that the round-robin property can
be stated for any pool size. -/
def get_next_finnhub_key (keys : List String) (idx : Nat) :
    Option String × Nat :=
  (keys.get? (idx % keys.length), idx + 1)

/-- n consecutive calls to get_next_finnhub_key starting from counter c:
the list of returned credentials and the final counter. -/
def acquireN (keys : List String) : Nat → Nat → List (Option String) × Nat
  | c, 0 => ([], c)
  | c, n + 1 =>
    let r := get_next_finnhub_key keys c
    let rest := acquireN keys r.2 n
    (r.1 :: rest.1, rest.2)

theorem acquireN_eq (keys : List String) (c n : Nat) :
    acquireN keys c n =
      ((List.range n).map (fun i => keys.get? ((c + i) % keys.length)),
        c + n) := by
  induction n generalizing c with
  | zero => simp [acquireN]
  | succ n ih =>
    simp only [acquireN, get_next_finnhub_key, ih (c + 1)]
    rw [List.range_succ_eq_map]
    simp only [List.map_cons, List.map_map, Nat.add_zero, Prod.mk.injEq,
      List.cons.injEq]
    refine ⟨⟨by trivial, ?_⟩, by omega⟩
    apply List.map_congr_left
    intro i _
    simp only [Function.comp_apply]
    congr 2
    omega

/-! ### The linear-backoff request executor (api.py lines 558-589) -/

/-- Outcome of one attempt of an outbound HTTP request: either the requests
library raised (timeout, connection error), or a response arrived carrying a
status code and a body of type β. -/
inductive PyResp (β : Type) where
  | exn (msg : String)
  | resp (status : Nat) (body : β)
deriving DecidableEq, Repr

/-- Loop body of _make_api_request: attempt is the 0-based attempt index,
fuel is the number of loop iterations the for-range still allows, delays
accumulates the sleeps requested so far.  A transport exception propagates
(the function has no try/except).  Returns (delays, status, body). -/
def make_api_request_go {β : Type} (t : Nat → PyResp β) (max_retries : Nat) :
    Nat → Nat → List Nat → Except String (List Nat × Nat × β)
  | _, 0, _ => .error "loop fell through"
  | attempt, fuel + 1, delays =>
    match t attempt with
    | .exn m => .error m
    | .resp status body =>
      if status = 429 ∧ attempt < max_retries then
        make_api_request_go t max_retries (attempt + 1) fuel
          (delays ++ [60 + 30 * attempt])
      else
        .ok (delays, status, body)

/-- api.py lines 558-589, _make_api_request: up to max_retries + 1 attempts;
on a 429 before the final attempt sleep 60 + 30 * attempt seconds and retry;
otherwise return the response as received. -/
def make_api_request {β : Type} (t : Nat → PyResp β)
    (max_retries : Nat := 3) : Except String (List Nat × Nat × β) :=
  make_api_request_go t max_retries 0 (max_retries + 1) []

theorem make_api_request_go_ok {β : Type} (t : Nat → PyResp β)
    (max_retries : Nat) :
    ∀ fuel attempt delays d st b,
      attempt ≤ max_retries →
      make_api_request_go t max_retries attempt fuel delays =
        .ok (d, st, b) →
      ∃ k, d = delays ++ (List.range' attempt k).map (fun j => 60 + 30 * j) ∧
        t (attempt + k) = .resp st b ∧ attempt + k ≤ max_retries := by
  intro fuel
  induction fuel with
  | zero => intro attempt delays d st b _ h; simp [make_api_request_go] at h
  | succ fuel ih =>
    intro attempt delays d st b hle h
    revert h
    simp only [make_api_request_go]
    cases ht : t attempt with
    | exn m => intro h; simp at h
    | resp status body =>
      dsimp only
      by_cases hc : status = 429 ∧ attempt < max_retries
      · rw [if_pos hc]
        intro h
        obtain ⟨k, hk, hresp, hbound⟩ :=
          ih (attempt + 1) (delays ++ [60 + 30 * attempt]) d st b hc.2 h
        refine ⟨k + 1, ?_, ?_, by omega⟩
        · rw [hk, List.range'_succ]
          simp [List.append_assoc]
        · have he : attempt + (k + 1) = attempt + 1 + k := by omega
          rw [he]; exact hresp
      · rw [if_neg hc]
        intro h
        simp only [Except.ok.injEq, Prod.mk.injEq] at h
        obtain ⟨h1, h2, h3⟩ := h
        refine ⟨0, by simp [h1.symm], ?_, by omega⟩
        rw [Nat.add_zero, ht, h2, h3]

theorem make_api_request_go_no_exn {β : Type} (t : Nat → PyResp β)
    (max_retries : Nat) (hnx : ∀ i, ∀ m, t i ≠ .exn m) :
    ∀ fuel attempt delays,
      attempt ≤ max_retries → max_retries + 1 ≤ attempt + fuel →
      ∃ d st b, make_api_request_go t max_retries attempt fuel delays =
        .ok (d, st, b) := by
  intro fuel
  induction fuel with
  | zero => intro attempt delays h1 h2; omega
  | succ fuel ih =>
    intro attempt delays h1 h2
    simp only [make_api_request_go]
    cases ht : t attempt with
    | exn m => exact absurd ht (hnx attempt m)
    | resp status body =>
      dsimp only
      by_cases hc : status = 429 ∧ attempt < max_retries
      · rw [if_pos hc]
        exact ih (attempt + 1) (delays ++ [60 + 30 * attempt]) hc.2 (by omega)
      · rw [if_neg hc]
        exact ⟨delays, status, body, rfl⟩

/-- C5: starting from any counter value c, each acquire call on a pool of
size N returns pool[counter mod N] and increments the counter; the sequence
of returned credentials is pool[(c + i) mod N]; the (N + 1)th call returns
the credential of the 1st call; and for a duplicate-free pool any two of
the first N calls return distinct credentials. -/
theorem key_rotation_round_robin (keys : List String) (c : Nat)
    (hN : 0 < keys.length) (hnd : keys.Nodup) :
    (∀ k, get_next_finnhub_key keys k =
      (keys.get? (k % keys.length), k + 1)) ∧
    (∀ n, acquireN keys c n =
      ((List.range n).map (fun i => keys.get? ((c + i) % keys.length)),
        c + n)) ∧
    keys.get? ((c + keys.length) % keys.length) =
      keys.get? (c % keys.length) ∧
    (∀ i j, i < keys.length → j < keys.length → i ≠ j →
      keys.get? ((c + i) % keys.length) ≠
        keys.get? ((c + j) % keys.length)) := by
  refine ⟨fun k => rfl, fun n => acquireN_eq keys c n, ?_, ?_⟩
  · rw [Nat.add_mod_right]
  · intro i j hi hj hij heq
    have hmi : (c + i) % keys.length < keys.length := Nat.mod_lt _ hN
    have hmj : (c + j) % keys.length < keys.length := Nat.mod_lt _ hN
    rw [List.get?_eq_get hmi, List.get?_eq_get hmj] at heq
    have heq' : (c + i) % keys.length = (c + j) % keys.length := by
      have := (List.Nodup.get_inj_iff hnd).mp (Option.some.inj heq)
      exact Fin.mk.inj_iff.mp this
    have hmod : i % keys.length = j % keys.length :=
      Nat.ModEq.add_left_cancel' c heq'
    rw [Nat.mod_eq_of_lt hi, Nat.mod_eq_of_lt hj] at hmod
    exact hij hmod

/-- Witness for key_rotation_round_robin on the default three-key pool
starting at counter 5. -/
theorem key_rotation_round_robin_witness :
    FINNHUB_KEYS.get? ((5 + FINNHUB_KEYS.length) % FINNHUB_KEYS.length) =
      FINNHUB_KEYS.get? (5 % FINNHUB_KEYS.length) ∧
    FINNHUB_KEYS.get? ((5 + 0) % FINNHUB_KEYS.length) ≠
      FINNHUB_KEYS.get? ((5 + 1) % FINNHUB_KEYS.length) :=
  ⟨(key_rotation_round_robin FINNHUB_KEYS 5 (by decide) (by decide)).2.2.1,
   (key_rotation_round_robin FINNHUB_KEYS 5 (by decide) (by decide)).2.2.2
     0 1 (by decide) (by decide) (by decide)⟩

/-- C6: whenever _make_api_request returns, the i-th recorded sleep equals
60 + 30 * i seconds (hence the delays are monotone non-decreasing), at most
max_retries sleeps happen, and the returned response is exactly the
response the transport produced on the final attempt - no retry follows
it. -/
theorem linear_backoff_schedule {β : Type} (t : Nat → PyResp β)
    (max_retries : Nat) (d : List Nat) (st : Nat) (b : β)
    (h : make_api_request t max_retries = .ok (d, st, b)) :
    (∀ i, (hi : i < d.length) → d.get ⟨i, hi⟩ = 60 + 30 * i) ∧
    (∀ i j, (hi : i < d.length) → (hj : j < d.length) → i ≤ j →
      d.get ⟨i, hi⟩ ≤ d.get ⟨j, hj⟩) ∧
    d.length ≤ max_retries ∧
    t d.length = .resp st b := by
  obtain ⟨k, hk, hresp, hbound⟩ :=
    make_api_request_go_ok t max_retries (max_retries + 1) 0 [] d st b
      (Nat.zero_le _) h
  rw [List.nil_append] at hk
  have hlen : d.length = k := by rw [hk]; simp
  have hval : ∀ i, (hi : i < d.length) → d.get ⟨i, hi⟩ = 60 + 30 * i := by
    intro i hi
    subst hk
    simp [List.get_eq_getElem, List.getElem_map, List.getElem_range']
  refine ⟨hval, ?_, by omega, ?_⟩
  · intro i j hi hj hij
    rw [hval i hi, hval j hj]
    omega
  · rw [hlen]
    simpa using hresp

/-- A transport that is rate limited on its first two attempts and succeeds
on the third, used to witness the backoff schedule. -/
def backoffDemoTransport : Nat → PyResp Nat := fun i =>
  if i < 2 then .resp 429 0 else .resp 200 7

/-- Witness for linear_backoff_schedule: two 429s then a success produce
sleeps of exactly 60 and 90 seconds and return the third response. -/
theorem linear_backoff_schedule_witness :
    make_api_request backoffDemoTransport 3 = .ok ([60, 90], 200, 7) ∧
    backoffDemoTransport ([60, 90] : List Nat).length = .resp 200 7 :=
  ⟨by rfl,
   (linear_backoff_schedule backoffDemoTransport 3 [60, 90] 200 7
      (by rfl)).2.2.2⟩

/-! ### Price records and the price retrieval chain
(api.py lines 260-316, 332-403 and 592-614) -/

/-- The canonical Price record as constructed in api.py (the field set is
visible in the Price constructor calls; open is renamed open_ because open
is a Lean keyword). -/
structure Price where
  open_ : ℚ
  high : ℚ
  low : ℚ
  close : ℚ
  volume : Int
  time : String
deriving DecidableEq, Repr

/-- One row of the Yahoo chart response, after the per-timestamp conversion
datetime.fromtimestamp(ts).strftime of api.py line 380-381, which is
abstracted as the given date string; each OHLCV entry may be null. -/
structure YahooRow where
  date_str : String
  open_ : Option ℚ
  high : Option ℚ
  low : Option ℚ
  close : Option ℚ
  volume : Option Int
deriving DecidableEq, Repr

/-- One candle of the Finnhub stock/candle response, after the same
timestamp-to-date conversion (api.py lines 296-297); Finnhub candles carry
total values. -/
structure FinnhubCandle where
  date_str : String
  open_ : ℚ
  high : ℚ
  low : ℚ
  close : ℚ
  volume : Int
deriving DecidableEq, Repr

/-- api.py lines 332-403, _get_prices_yahoo: none models every absorbed
failure (non-200, missing chart result, empty timestamps, exception); rows
outside [start_date, end_date] or with a null OHLCV entry are skipped. -/
def get_prices_yahoo (resp : Option (List YahooRow))
    (start_date end_date : String) : List Price :=
  match resp with
  | none => []
  | some rows =>
    rows.filterMap fun r =>
      if strLt r.date_str start_date || strLt end_date r.date_str then none
      else
        match r.open_, r.high, r.low, r.close, r.volume with
        | some o, some hg, some lo, some cl, some v =>
          some { open_ := o, high := hg, low := lo, close := cl,
                 volume := v, time := r.date_str }
        | _, _, _, _, _ => none

/-- api.py lines 260-316, _get_prices_finnhub: none models every absorbed
failure (request failure, status field not ok, empty timestamps,
exception); candles outside [start_date, end_date] are skipped. -/
def get_prices_finnhub (resp : Option (List FinnhubCandle))
    (start_date end_date : String) : List Price :=
  match resp with
  | none => []
  | some rows =>
    rows.filterMap fun r =>
      if strLt r.date_str start_date || strLt end_date r.date_str then none
      else
        some { open_ := r.open_, high := r.high, low := r.low,
               close := r.close, volume := r.volume, time := r.date_str }

/-- api.py line 595: the prices cache key. -/
def price_cache_key (ticker start_date end_date : String) : String :=
  ticker ++ "_" ++ start_date ++ "_" ++ end_date

/-- The provider responses available to one get_prices call: what Yahoo
and Finnhub would answer for the requested ticker and window. -/
structure PriceEnv where
  yahoo : String → String → String → Option (List YahooRow)
  finnhub : String → String → String → Option (List FinnhubCandle)

/-- Result of a get_prices call: the returned records, the cache state
after the call, and the number of outbound provider fetches performed
(instrumentation for the zero-outbound-calls cache property). -/
structure PricesResult where
  records : List Price
  cache : List (String × List Price)
  providerCalls : Nat

/-- api.py lines 601-614: the fetch path of get_prices after a cache miss -
Yahoo first, Finnhub if Yahoo yielded nothing, return [] without caching
when both are empty, write-through otherwise. -/
def get_prices_fetch (env : PriceEnv) (cache : List (String × List Price))
    (ticker start_date end_date : String) : PricesResult :=
  let yprices := get_prices_yahoo (env.yahoo ticker start_date end_date)
    start_date end_date
  let prices := if yprices.isEmpty then
      get_prices_finnhub (env.finnhub ticker start_date end_date)
        start_date end_date
    else yprices
  let calls := if yprices.isEmpty then 2 else 1
  if prices.isEmpty then
    { records := [], cache := cache, providerCalls := calls }
  else
    { records := prices,
      cache := cacheSet cache (price_cache_key ticker start_date end_date)
        prices,
      providerCalls := calls }

/-- api.py lines 592-614, get_prices: cache-aside around the Yahoo-Finnhub
fallback chain.  A stored empty list is falsy in Python, so it does not
count as a hit. -/
def get_prices (env : PriceEnv) (cache : List (String × List Price))
    (ticker start_date end_date : String) : PricesResult :=
  match cacheGet cache (price_cache_key ticker start_date end_date) with
  | some cached_data =>
    if cached_data.isEmpty then
      get_prices_fetch env cache ticker start_date end_date
    else { records := cached_data, cache := cache, providerCalls := 0 }
  | none => get_prices_fetch env cache ticker start_date end_date

/-- The record lies inside the requested window under date-string
comparison. -/
def inWindow (start_date end_date : String) (p : Price) : Prop :=
  strLe start_date p.time = true ∧ strLe p.time end_date = true

theorem get_prices_yahoo_inWindow (resp : Option (List YahooRow))
    (start_date end_date : String) :
    ∀ p ∈ get_prices_yahoo resp start_date end_date,
      inWindow start_date end_date p := by
  intro p hp
  cases resp with
  | none => simp [get_prices_yahoo] at hp
  | some rows =>
    simp only [get_prices_yahoo, List.mem_filterMap] at hp
    obtain ⟨r, _, hr⟩ := hp
    revert hr
    split
    · intro hr; exact absurd hr (by simp)
    · next hcond =>
      simp only [Bool.or_eq_true, not_or, Bool.not_eq_true] at hcond
      split
      · intro hr
        obtain ⟨rfl⟩ := Option.some.inj hr
        exact ⟨by simp [strLe, hcond.1], by simp [strLe, hcond.2]⟩
      · intro hr; exact absurd hr (by simp)

theorem get_prices_finnhub_inWindow (resp : Option (List FinnhubCandle))
    (start_date end_date : String) :
    ∀ p ∈ get_prices_finnhub resp start_date end_date,
      inWindow start_date end_date p := by
  intro p hp
  cases resp with
  | none => simp [get_prices_finnhub] at hp
  | some rows =>
    simp only [get_prices_finnhub, List.mem_filterMap] at hp
    obtain ⟨r, _, hr⟩ := hp
    revert hr
    split
    · intro hr; exact absurd hr (by simp)
    · next hcond =>
      simp only [Bool.or_eq_true, not_or, Bool.not_eq_true] at hcond
      intro hr
      obtain ⟨rfl⟩ := Option.some.inj hr
      exact ⟨by simp [strLe, hcond.1], by simp [strLe, hcond.2]⟩

theorem get_prices_fetch_inWindow (env : PriceEnv)
    (cache : List (String × List Price)) (ticker start_date end_date : String) :
    ∀ p ∈ (get_prices_fetch env cache ticker start_date end_date).records,
      inWindow start_date end_date p := by
  intro p hp
  simp only [get_prices_fetch] at hp
  revert hp
  split
  · split
    · intro hp
      simp at hp
    · intro hp
      exact get_prices_finnhub_inWindow _ _ _ p hp
  · intro hp
    exact get_prices_yahoo_inWindow _ _ _ p hp

/-- C9: provider-buffered data is filtered back to the requested window:
every record produced by either price adapter lies inside
[start_date, end_date]; consequently every record returned by get_prices
lies inside the window, and the call preserves the in-window invariant of
the cache entry for this request, provided the entry it may read already
satisfied it (which the code itself guarantees, since only in-window
results are ever written for this key). -/
theorem prices_within_window (env : PriceEnv)
    (cache : List (String × List Price)) (ticker start_date end_date : String)
    (hc : ∀ l, cacheGet cache (price_cache_key ticker start_date end_date) =
      some l → ∀ p ∈ l, inWindow start_date end_date p) :
    (∀ resp, ∀ p ∈ get_prices_yahoo resp start_date end_date,
      inWindow start_date end_date p) ∧
    (∀ resp, ∀ p ∈ get_prices_finnhub resp start_date end_date,
      inWindow start_date end_date p) ∧
    (∀ p ∈ (get_prices env cache ticker start_date end_date).records,
      inWindow start_date end_date p) ∧
    (∀ l, cacheGet (get_prices env cache ticker start_date end_date).cache
        (price_cache_key ticker start_date end_date) = some l →
      ∀ p ∈ l, inWindow start_date end_date p) := by
  have hfetchc : ∀ l,
      cacheGet (get_prices_fetch env cache ticker start_date end_date).cache
        (price_cache_key ticker start_date end_date) = some l →
      ∀ p ∈ l, inWindow start_date end_date p := by
    intro l hl
    revert hl
    simp only [get_prices_fetch]
    split
    · split
      · exact fun hl => hc l hl
      · dsimp only
        rw [cacheGet_cacheSet]
        intro hl
        obtain rfl := Option.some.inj hl
        exact fun p hp => get_prices_finnhub_inWindow _ _ _ p hp
    · dsimp only
      rw [cacheGet_cacheSet]
      intro hl
      obtain rfl := Option.some.inj hl
      exact fun p hp => get_prices_yahoo_inWindow _ _ _ p hp
  refine ⟨fun resp => get_prices_yahoo_inWindow resp start_date end_date,
    fun resp => get_prices_finnhub_inWindow resp start_date end_date, ?_, ?_⟩
  · simp only [get_prices]
    cases hcg : cacheGet cache (price_cache_key ticker start_date end_date) with
    | none => exact get_prices_fetch_inWindow env cache ticker start_date end_date
    | some cached_data =>
      dsimp only
      by_cases hemp : cached_data.isEmpty
      · rw [if_pos hemp]
        exact get_prices_fetch_inWindow env cache ticker start_date end_date
      · rw [if_neg hemp]
        exact hc cached_data hcg
  · simp only [get_prices]
    cases hcg : cacheGet cache (price_cache_key ticker start_date end_date) with
    | none => exact hfetchc
    | some cached_data =>
      dsimp only
      by_cases hemp : cached_data.isEmpty
      · rw [if_pos hemp]
        exact hfetchc
      · rw [if_neg hemp]
        exact hc

/-- Witness for prices_within_window: a concrete returned record lies in
the requested window. -/
theorem prices_within_window_witness :
    inWindow "2024-01-01" "2024-01-10"
      { open_ := 1, high := 2, low := 1, close := 2, volume := 100,
        time := "2024-01-02" } :=
  (prices_within_window
    ⟨fun _ _ _ =>
      some [⟨"2024-01-02", some 1, some 2, some 1, some 2, some 100⟩],
     fun _ _ _ => none⟩
    [] "AAPL" "2024-01-01" "2024-01-10"
    (fun l hl => by simp [cacheGet] at hl)).2.2.1 _ (by decide)

theorem get_prices_fetch_calls_pos (env : PriceEnv)
    (cache : List (String × List Price)) (ticker start_date end_date : String) :
    0 < (get_prices_fetch env cache ticker start_date end_date).providerCalls := by
  simp only [get_prices_fetch]
  split
  · split <;> simp
  · simp

theorem get_prices_fetch_empty (env : PriceEnv)
    (cache : List (String × List Price)) (ticker start_date end_date : String)
    (h : (get_prices_fetch env cache ticker start_date end_date).records = []) :
    (get_prices_fetch env cache ticker start_date end_date).cache = cache := by
  revert h
  simp only [get_prices_fetch]
  split
  · split
    · intro _; rfl
    · next hne =>
      intro h
      dsimp only at h
      simp [h] at hne
  · next hne =>
    intro h
    dsimp only at h
    simp [h] at hne

theorem get_prices_fetch_nonempty (env : PriceEnv)
    (cache : List (String × List Price)) (ticker start_date end_date : String)
    (h : (get_prices_fetch env cache ticker start_date end_date).records ≠ []) :
    cacheGet (get_prices_fetch env cache ticker start_date end_date).cache
        (price_cache_key ticker start_date end_date) =
      some (get_prices_fetch env cache ticker start_date end_date).records := by
  revert h
  simp only [get_prices_fetch]
  split
  · split
    · intro h; exact absurd rfl h
    · intro _
      dsimp only
      rw [cacheGet_cacheSet]
  · intro _
    dsimp only
    rw [cacheGet_cacheSet]

theorem get_prices_empty_no_write (env : PriceEnv)
    (cache : List (String × List Price)) (ticker start_date end_date : String)
    (h : (get_prices env cache ticker start_date end_date).records = []) :
    (get_prices env cache ticker start_date end_date).cache = cache ∧
    ∀ env2 : PriceEnv,
      0 < (get_prices env2 cache ticker start_date end_date).providerCalls := by
  revert h
  simp only [get_prices]
  cases hcg : cacheGet cache (price_cache_key ticker start_date end_date) with
  | none =>
    intro h
    exact ⟨get_prices_fetch_empty env cache ticker start_date end_date h,
      fun env2 => get_prices_fetch_calls_pos env2 cache ticker start_date
        end_date⟩
  | some cached_data =>
    dsimp only
    by_cases hemp : cached_data.isEmpty
    · rw [if_pos hemp]
      intro h
      refine ⟨get_prices_fetch_empty env cache ticker start_date end_date h,
        fun env2 => ?_⟩
      rw [if_pos hemp]
      exact get_prices_fetch_calls_pos env2 cache ticker start_date end_date
    · rw [if_neg hemp]
      intro h
      dsimp only at h
      simp [h] at hemp

theorem get_prices_nonempty_cached (env : PriceEnv)
    (cache : List (String × List Price)) (ticker start_date end_date : String)
    (h : (get_prices env cache ticker start_date end_date).records ≠ []) :
    cacheGet (get_prices env cache ticker start_date end_date).cache
        (price_cache_key ticker start_date end_date) =
      some (get_prices env cache ticker start_date end_date).records := by
  revert h
  simp only [get_prices]
  cases hcg : cacheGet cache (price_cache_key ticker start_date end_date) with
  | none =>
    exact fun h => get_prices_fetch_nonempty env cache ticker start_date
      end_date h
  | some cached_data =>
    dsimp only
    by_cases hemp : cached_data.isEmpty
    · rw [if_pos hemp]
      exact fun h => get_prices_fetch_nonempty env cache ticker start_date
        end_date h
    · rw [if_neg hemp]
      intro _
      exact hcg

theorem get_prices_second_call (env env2 : PriceEnv)
    (cache : List (String × List Price)) (ticker start_date end_date : String)
    (h : (get_prices env cache ticker start_date end_date).records ≠ []) :
    get_prices env2 (get_prices env cache ticker start_date end_date).cache
        ticker start_date end_date =
      { records := (get_prices env cache ticker start_date end_date).records,
        cache := (get_prices env cache ticker start_date end_date).cache,
        providerCalls := 0 } := by
  have hcg := get_prices_nonempty_cached env cache ticker start_date end_date h
  have hemp : (get_prices env cache ticker start_date end_date).records.isEmpty
      = false := by
    cases hr : (get_prices env cache ticker start_date end_date).records with
    | nil => exact absurd hr h
    | cons a t => rfl
  generalize hR : get_prices env cache ticker start_date end_date = r1 at hcg hemp
  simp only [get_prices, hcg, hemp, Bool.false_eq_true, if_false]

/-! ### Financial metrics (api.py lines 114-257, 406-534 and 617-645)
The canonical FinancialMetrics field set is read off the two constructor
calls in api.py; numeric fields hold Option JVal (none = null). -/

structure FinancialMetrics where
  ticker : String
  report_period : String
  period : String
  currency : String
  market_cap : Option JVal
  enterprise_value : Option JVal
  price_to_earnings_ratio : Option JVal
  price_to_book_ratio : Option JVal
  price_to_sales_ratio : Option JVal
  enterprise_value_to_ebitda_ratio : Option JVal
  enterprise_value_to_revenue_ratio : Option JVal
  free_cash_flow_yield : Option JVal
  peg_ratio : Option JVal
  gross_margin : Option JVal
  operating_margin : Option JVal
  net_margin : Option JVal
  return_on_equity : Option JVal
  return_on_assets : Option JVal
  return_on_invested_capital : Option JVal
  asset_turnover : Option JVal
  inventory_turnover : Option JVal
  receivables_turnover : Option JVal
  days_sales_outstanding : Option JVal
  operating_cycle : Option JVal
  working_capital_turnover : Option JVal
  current_ratio : Option JVal
  quick_ratio : Option JVal
  cash_ratio : Option JVal
  operating_cash_flow_ratio : Option JVal
  debt_to_equity : Option JVal
  debt_to_assets : Option JVal
  interest_coverage : Option JVal
  revenue_growth : Option JVal
  earnings_growth : Option JVal
  book_value_growth : Option JVal
  earnings_per_share_growth : Option JVal
  free_cash_flow_growth : Option JVal
  operating_income_growth : Option JVal
  ebitda_growth : Option JVal
  payout_ratio : Option JVal
  earnings_per_share : Option JVal
  book_value_per_share : Option JVal
  free_cash_flow_per_share : Option JVal
deriving DecidableEq, Repr

/-- api.py line 142: market cap from the Finnhub profile inside
_get_financial_metrics_finnhub.  An absent (or null) field falls back to
the default 0 of profile_data.get, which is then scaled - it does not stay
None; only a falsy profile_data (failed request or empty dict) gives
None. -/
def finnhub_profile_market_cap (profile_data : Option Dict) : Option JVal :=
  match profile_data with
  | none => none
  | some p =>
    if p.isEmpty then none
    else some (.num (pyGetNumD p "marketCapitalization" 0 * 1000000))

/-- api.py line 143: currency from the Finnhub profile, default USD. -/
def finnhub_profile_currency (profile_data : Option Dict) : String :=
  match profile_data with
  | none => "USD"
  | some p => if p.isEmpty then "USD" else pyGetStrD p "currency" "USD"

/-- api.py lines 193-251: the FinancialMetrics constructor call of
_get_financial_metrics_finnhub - every Python x or y chain becomes pyOr. -/
def finnhub_metrics_record (ticker end_date period currency : String)
    (market_cap : Option JVal) (metric fmp_ratios fmp_keymetrics : Dict) :
    FinancialMetrics where
  ticker := ticker
  report_period := end_date
  period := period
  currency := currency
  market_cap := market_cap
  enterprise_value := pyGet metric "enterpriseValue"
  price_to_earnings_ratio :=
    pyOr (pyGet metric "peNormalizedAnnual") (pyGet metric "peTTM")
  price_to_book_ratio :=
    pyOr (pyGet metric "pbQuarterly") (pyGet metric "pbAnnual")
  price_to_sales_ratio :=
    pyOr (pyGet metric "psTTM") (pyGet metric "psAnnual")
  enterprise_value_to_ebitda_ratio := pyGet metric "currentEv/freeCashFlowTTM"
  enterprise_value_to_revenue_ratio := pyGet fmp_keymetrics "evToSales"
  free_cash_flow_yield :=
    pyOr (pyGet metric "freeCashFlowYieldTTM")
      (pyGet fmp_keymetrics "freeCashFlowYield")
  peg_ratio :=
    pyOr (pyGet metric "pegRatio")
      (pyGet fmp_ratios "priceToEarningsGrowthRatio")
  gross_margin :=
    pyOr (pyGet metric "grossMarginTTM") (pyGet fmp_ratios "grossProfitMargin")
  operating_margin :=
    pyOr (pyGet metric "operatingMarginTTM")
      (pyGet fmp_ratios "operatingProfitMargin")
  net_margin :=
    pyOr (pyGet metric "netProfitMarginTTM")
      (pyGet fmp_ratios "netProfitMargin")
  return_on_equity :=
    pyOr (pyOr (pyGet metric "roeTTM") (pyGet metric "roeRfy"))
      (pyGet fmp_keymetrics "returnOnEquity")
  return_on_assets :=
    pyOr (pyOr (pyGet metric "roaTTM") (pyGet metric "roaRfy"))
      (pyGet fmp_keymetrics "returnOnAssets")
  return_on_invested_capital :=
    pyOr (pyGet metric "roicTTM")
      (pyGet fmp_keymetrics "returnOnInvestedCapital")
  asset_turnover :=
    pyOr (pyGet metric "assetTurnoverTTM") (pyGet fmp_ratios "assetTurnover")
  inventory_turnover :=
    pyOr (pyGet metric "inventoryTurnoverTTM")
      (pyGet fmp_ratios "inventoryTurnover")
  receivables_turnover :=
    pyOr (pyGet metric "receivablesTurnoverTTM")
      (pyGet fmp_ratios "receivablesTurnover")
  days_sales_outstanding := pyGet fmp_keymetrics "daysOfSalesOutstanding"
  operating_cycle := pyGet fmp_keymetrics "operatingCycle"
  working_capital_turnover := pyGet fmp_ratios "workingCapitalTurnoverRatio"
  current_ratio :=
    pyOr (pyOr (pyGet metric "currentRatioQuarterly")
      (pyGet metric "currentRatioAnnual")) (pyGet fmp_ratios "currentRatio")
  quick_ratio :=
    pyOr (pyOr (pyGet metric "quickRatioQuarterly")
      (pyGet metric "quickRatioAnnual")) (pyGet fmp_ratios "quickRatio")
  cash_ratio :=
    pyOr (pyGet metric "cashRatioQuarterly") (pyGet fmp_ratios "cashRatio")
  operating_cash_flow_ratio := pyGet fmp_ratios "operatingCashFlowRatio"
  debt_to_equity :=
    pyOr (pyGet metric "totalDebt/totalEquityQuarterly")
      (pyGet fmp_ratios "debtToEquityRatio")
  debt_to_assets := pyGet fmp_ratios "debtToAssetsRatio"
  interest_coverage := pyGet fmp_ratios "interestCoverageRatio"
  revenue_growth :=
    pyOr (pyGet metric "revenueGrowthQuarterlyYoy")
      (pyGet metric "revenueGrowth3Y")
  earnings_growth :=
    pyOr (pyGet metric "epsGrowthQuarterlyYoy") (pyGet metric "epsGrowth3Y")
  book_value_growth := pyGet metric "bookValueShareGrowth5Y"
  earnings_per_share_growth := pyGet metric "epsGrowth5Y"
  free_cash_flow_growth := pyGet metric "freeCashFlowGrowth5Y"
  operating_income_growth := pyGet metric "ebitdaGrowth5Y"
  ebitda_growth := pyGet metric "ebitdaGrowth5Y"
  payout_ratio :=
    pyOr (pyGet metric "payoutRatioTTM")
      (pyGet fmp_ratios "dividendPayoutRatio")
  earnings_per_share :=
    pyOr (pyGet metric "epsTTM") (pyGet fmp_ratios "netIncomePerShare")
  book_value_per_share :=
    pyOr (pyGet metric "bookValuePerShareQuarterly")
      (pyGet fmp_ratios "bookValuePerShare")
  free_cash_flow_per_share :=
    pyOr (pyGet metric "freeCashFlowPerShareTTM")
      (pyGet fmp_ratios "freeCashFlowPerShare")

/-- api.py lines 319-329, _get_market_cap_finnhub: this dedicated getter
does return None when the field is absent or falsy. -/
def get_market_cap_finnhub (data : Option Dict) : Option ℚ :=
  match data with
  | none => none
  | some d =>
    if d.isEmpty then none
    else
      if truthy (pyGet d "marketCapitalization") then
        some (pyGetNumD d "marketCapitalization" 0 * 1000000)
      else none

theorem pyOr_firstTruthy2 (a b : Option JVal) :
    pyOr a b = firstTruthy [a, b] := rfl

theorem pyOr_firstTruthy3 (a b c : Option JVal) :
    pyOr (pyOr a b) c = firstTruthy [a, b, c] := by
  by_cases ha : truthy a <;> simp [pyOr, firstTruthy, ha]

/-- A Finnhub metric dict whose first PE candidate is a present zero. -/
def peMetricZero : Dict :=
  [("peNormalizedAnnual", .num 0), ("peTTM", .num 5)]

/-- Counterexample to C7: a present 0 in the first candidate
(peNormalizedAnnual) is skipped by the Python or chain, so the code takes
the later candidate (peTTM = 5) while the claimed first-present-non-null
rule yields 0. -/
theorem zero_value_not_preferred :
    (finnhub_metrics_record "AAPL" "2024-06-30" "ttm" "USD" none
        peMetricZero [] []).price_to_earnings_ratio = some (.num 5) ∧
    firstNonNull [pyGet peMetricZero "peNormalizedAnnual",
      pyGet peMetricZero "peTTM"] = some (.num 0) ∧
    (finnhub_metrics_record "AAPL" "2024-06-30" "ttm" "USD" none
        peMetricZero [] []).price_to_earnings_ratio ≠
      firstNonNull [pyGet peMetricZero "peNormalizedAnnual",
        pyGet peMetricZero "peTTM"] := by
  refine ⟨by decide, by decide, by decide⟩

/-- C7 as amended: every canonical field built from an or chain holds the
first TRUTHY candidate (present, non-null and non-zero) rather than the
first present non-null one; a present zero falls through to later
candidates, and when no candidate is truthy the value of the last candidate is
kept.  The candidate order is as claimed: primary (Finnhub) fields first,
then the FMP supplement fields. -/
theorem field_mapping_first_truthy (ticker end_date period currency : String)
    (market_cap : Option JVal) (metric fmp_ratios fmp_keymetrics : Dict) :
    (finnhub_metrics_record ticker end_date period currency market_cap
        metric fmp_ratios fmp_keymetrics).price_to_earnings_ratio =
      firstTruthy [pyGet metric "peNormalizedAnnual", pyGet metric "peTTM"] ∧
    (finnhub_metrics_record ticker end_date period currency market_cap
        metric fmp_ratios fmp_keymetrics).price_to_book_ratio =
      firstTruthy [pyGet metric "pbQuarterly", pyGet metric "pbAnnual"] ∧
    (finnhub_metrics_record ticker end_date period currency market_cap
        metric fmp_ratios fmp_keymetrics).price_to_sales_ratio =
      firstTruthy [pyGet metric "psTTM", pyGet metric "psAnnual"] ∧
    (finnhub_metrics_record ticker end_date period currency market_cap
        metric fmp_ratios fmp_keymetrics).free_cash_flow_yield =
      firstTruthy [pyGet metric "freeCashFlowYieldTTM",
        pyGet fmp_keymetrics "freeCashFlowYield"] ∧
    (finnhub_metrics_record ticker end_date period currency market_cap
        metric fmp_ratios fmp_keymetrics).peg_ratio =
      firstTruthy [pyGet metric "pegRatio",
        pyGet fmp_ratios "priceToEarningsGrowthRatio"] ∧
    (finnhub_metrics_record ticker end_date period currency market_cap
        metric fmp_ratios fmp_keymetrics).gross_margin =
      firstTruthy [pyGet metric "grossMarginTTM",
        pyGet fmp_ratios "grossProfitMargin"] ∧
    (finnhub_metrics_record ticker end_date period currency market_cap
        metric fmp_ratios fmp_keymetrics).operating_margin =
      firstTruthy [pyGet metric "operatingMarginTTM",
        pyGet fmp_ratios "operatingProfitMargin"] ∧
    (finnhub_metrics_record ticker end_date period currency market_cap
        metric fmp_ratios fmp_keymetrics).net_margin =
      firstTruthy [pyGet metric "netProfitMarginTTM",
        pyGet fmp_ratios "netProfitMargin"] ∧
    (finnhub_metrics_record ticker end_date period currency market_cap
        metric fmp_ratios fmp_keymetrics).return_on_equity =
      firstTruthy [pyGet metric "roeTTM", pyGet metric "roeRfy",
        pyGet fmp_keymetrics "returnOnEquity"] ∧
    (finnhub_metrics_record ticker end_date period currency market_cap
        metric fmp_ratios fmp_keymetrics).return_on_assets =
      firstTruthy [pyGet metric "roaTTM", pyGet metric "roaRfy",
        pyGet fmp_keymetrics "returnOnAssets"] ∧
    (finnhub_metrics_record ticker end_date period currency market_cap
        metric fmp_ratios fmp_keymetrics).return_on_invested_capital =
      firstTruthy [pyGet metric "roicTTM",
        pyGet fmp_keymetrics "returnOnInvestedCapital"] ∧
    (finnhub_metrics_record ticker end_date period currency market_cap
        metric fmp_ratios fmp_keymetrics).asset_turnover =
      firstTruthy [pyGet metric "assetTurnoverTTM",
        pyGet fmp_ratios "assetTurnover"] ∧
    (finnhub_metrics_record ticker end_date period currency market_cap
        metric fmp_ratios fmp_keymetrics).inventory_turnover =
      firstTruthy [pyGet metric "inventoryTurnoverTTM",
        pyGet fmp_ratios "inventoryTurnover"] ∧
    (finnhub_metrics_record ticker end_date period currency market_cap
        metric fmp_ratios fmp_keymetrics).receivables_turnover =
      firstTruthy [pyGet metric "receivablesTurnoverTTM",
        pyGet fmp_ratios "receivablesTurnover"] ∧
    (finnhub_metrics_record ticker end_date period currency market_cap
        metric fmp_ratios fmp_keymetrics).current_ratio =
      firstTruthy [pyGet metric "currentRatioQuarterly",
        pyGet metric "currentRatioAnnual", pyGet fmp_ratios "currentRatio"] ∧
    (finnhub_metrics_record ticker end_date period currency market_cap
        metric fmp_ratios fmp_keymetrics).quick_ratio =
      firstTruthy [pyGet metric "quickRatioQuarterly",
        pyGet metric "quickRatioAnnual", pyGet fmp_ratios "quickRatio"] ∧
    (finnhub_metrics_record ticker end_date period currency market_cap
        metric fmp_ratios fmp_keymetrics).cash_ratio =
      firstTruthy [pyGet metric "cashRatioQuarterly",
        pyGet fmp_ratios "cashRatio"] ∧
    (finnhub_metrics_record ticker end_date period currency market_cap
        metric fmp_ratios fmp_keymetrics).debt_to_equity =
      firstTruthy [pyGet metric "totalDebt/totalEquityQuarterly",
        pyGet fmp_ratios "debtToEquityRatio"] ∧
    (finnhub_metrics_record ticker end_date period currency market_cap
        metric fmp_ratios fmp_keymetrics).revenue_growth =
      firstTruthy [pyGet metric "revenueGrowthQuarterlyYoy",
        pyGet metric "revenueGrowth3Y"] ∧
    (finnhub_metrics_record ticker end_date period currency market_cap
        metric fmp_ratios fmp_keymetrics).earnings_growth =
      firstTruthy [pyGet metric "epsGrowthQuarterlyYoy",
        pyGet metric "epsGrowth3Y"] ∧
    (finnhub_metrics_record ticker end_date period currency market_cap
        metric fmp_ratios fmp_keymetrics).payout_ratio =
      firstTruthy [pyGet metric "payoutRatioTTM",
        pyGet fmp_ratios "dividendPayoutRatio"] ∧
    (finnhub_metrics_record ticker end_date period currency market_cap
        metric fmp_ratios fmp_keymetrics).earnings_per_share =
      firstTruthy [pyGet metric "epsTTM",
        pyGet fmp_ratios "netIncomePerShare"] ∧
    (finnhub_metrics_record ticker end_date period currency market_cap
        metric fmp_ratios fmp_keymetrics).book_value_per_share =
      firstTruthy [pyGet metric "bookValuePerShareQuarterly",
        pyGet fmp_ratios "bookValuePerShare"] ∧
    (finnhub_metrics_record ticker end_date period currency market_cap
        metric fmp_ratios fmp_keymetrics).free_cash_flow_per_share =
      firstTruthy [pyGet metric "freeCashFlowPerShareTTM",
        pyGet fmp_ratios "freeCashFlowPerShare"] := by
  refine ⟨rfl, rfl, rfl, rfl, rfl, rfl, rfl, rfl,
    pyOr_firstTruthy3 _ _ _, pyOr_firstTruthy3 _ _ _, rfl, rfl, rfl, rfl,
    pyOr_firstTruthy3 _ _ _, pyOr_firstTruthy3 _ _ _, rfl, rfl, rfl, rfl,
    rfl, rfl, rfl, rfl⟩

/-- A payload stored in the financial-metrics cache namespace: either the
model dumps of canonical records (facade write, api.py line 644) or the
single-dict FMP supplement payload (api.py line 188). -/
inductive MetricsPayload where
  | records (ms : List FinancialMetrics)
  | supplement (ratios keymetrics : Dict)
deriving DecidableEq, Repr

abbrev MetricsCache := List (String × MetricsPayload)

/-- The provider responses available to one _get_financial_metrics_finnhub
call: the metric sub-dict of stock/metric (none = failed request or falsy
response), the stock/profile2 dict (none = failed request), whether
FMP_API_KEY is configured, and the two FMP supplement endpoint outcomes
(json decoding failures folded into exn, since the surrounding try absorbs
them identically). -/
structure FinnhubMetricsEnv where
  metric : Option Dict
  profile : Option Dict
  fmp_api_key : Bool
  fmpRatios : PyResp (List Dict)
  fmpKeymetrics : PyResp (List Dict)

/-- api.py lines 168-190: fetch the FMP supplement (ratios then
key-metrics), then cache the pair under fmp_supplement_ticker when at
least one is non-empty; an exception at either request aborts the rest of
the block and skips the cache write.  Returns
(fmp_ratios, fmp_keymetrics, cache after, requests made). -/
def fmp_supplement_fetch (env : FinnhubMetricsEnv) (cache : MetricsCache)
    (ticker : String) : Dict × Dict × MetricsCache × Nat :=
  match env.fmpRatios with
  | .exn _ => ([], [], cache, 1)
  | .resp st1 body1 =>
    let fmp_ratios := if st1 = 200 then body1.headD [] else []
    match env.fmpKeymetrics with
    | .exn _ => (fmp_ratios, [], cache, 2)
    | .resp st2 body2 =>
      let fmp_keymetrics := if st2 = 200 then body2.headD [] else []
      if fmp_ratios.isEmpty ∧ fmp_keymetrics.isEmpty then
        (fmp_ratios, fmp_keymetrics, cache, 2)
      else
        (fmp_ratios, fmp_keymetrics,
          cacheSet cache ("fmp_supplement_" ++ ticker)
            (.supplement fmp_ratios fmp_keymetrics), 2)

/-- api.py lines 114-257, _get_financial_metrics_finnhub: metric fetch,
profile fetch, optional cached FMP supplement, field mapping.  Returns
(records, cache after, provider requests made).  The blanket except of the
source can only fire on malformed data shapes that this typed model
excludes (see the file header). -/
def get_financial_metrics_finnhub (env : FinnhubMetricsEnv)
    (cache : MetricsCache) (ticker end_date period : String) (_limit : Nat) :
    List FinancialMetrics × MetricsCache × Nat :=
  match env.metric with
  | none => ([], cache, 1)
  | some metric =>
    if metric.isEmpty then ([], cache, 1)
    else
      let market_cap := finnhub_profile_market_cap env.profile
      let currency := finnhub_profile_currency env.profile
      let needs_fmp := env.fmp_api_key &&
        ((pyGet metric "pegRatio").isNone ||
         (pyGet metric "roicTTM").isNone ||
         (pyGet metric "freeCashFlowPerShareTTM").isNone)
      let sres : Dict × Dict × MetricsCache × Nat :=
        if needs_fmp then
          match cacheGet cache ("fmp_supplement_" ++ ticker) with
          | some (.supplement r km) => (r, km, cache, 0)
          | some (.records ms) =>
            if ms.isEmpty then fmp_supplement_fetch env cache ticker
            else ([], [], cache, 0)
          | none => fmp_supplement_fetch env cache ticker
        else ([], [], cache, 0)
      ([finnhub_metrics_record ticker end_date period currency market_cap
          metric sres.1 sres.2.1], sres.2.2.1, 2 + sres.2.2.2)

/-- api.py lines 453-527: one FinancialMetrics record of the FMP adapter,
built from ratios[i] with the aligned key-metrics, income-statement and
profile entries; growth rates compare consecutive income statements. -/
def fmp_metrics_item (ticker end_date period : String)
    (keymetrics income profile : List Dict) (i : Nat) (ratio : Dict) :
    FinancialMetrics :=
  let km := (keymetrics.get? i).getD []
  let inc := (income.get? i).getD []
  let prof := (profile.head?).getD []
  let revenue_growth : Option JVal :=
    match income.get? (i + 1) with
    | none => none
    | some prev_inc =>
      if truthy (pyGet prev_inc "revenue") ∧ truthy (pyGet inc "revenue") then
        some (.num ((pyGetNumD inc "revenue" 0 -
          pyGetNumD prev_inc "revenue" 0) / |pyGetNumD prev_inc "revenue" 0|))
      else none
  let earnings_growth : Option JVal :=
    match income.get? (i + 1) with
    | none => none
    | some prev_inc =>
      if truthy (pyGet prev_inc "netIncome") ∧ truthy (pyGet inc "netIncome")
      then
        some (.num ((pyGetNumD inc "netIncome" 0 -
          pyGetNumD prev_inc "netIncome" 0) /
          |pyGetNumD prev_inc "netIncome" 0|))
      else none
  { ticker := ticker
    report_period := pyGetStrD ratio "date" end_date
    period := if period = "ttm" then pyGetStrD ratio "period" "FY" else period
    currency := pyGetStrD prof "currency" "USD"
    market_cap := pyOr (pyGet prof "marketCap") (pyGet km "marketCap")
    enterprise_value := pyGet km "enterpriseValue"
    price_to_earnings_ratio := pyGet ratio "priceToEarningsRatio"
    price_to_book_ratio := pyGet ratio "priceToBookRatio"
    price_to_sales_ratio := pyGet ratio "priceToSalesRatio"
    enterprise_value_to_ebitda_ratio := pyGet km "evToEBITDA"
    enterprise_value_to_revenue_ratio := pyGet km "evToSales"
    free_cash_flow_yield := pyGet km "freeCashFlowYield"
    peg_ratio := pyGet ratio "priceToEarningsGrowthRatio"
    gross_margin := pyGet ratio "grossProfitMargin"
    operating_margin := pyGet ratio "operatingProfitMargin"
    net_margin := pyGet ratio "netProfitMargin"
    return_on_equity := pyGet km "returnOnEquity"
    return_on_assets := pyGet km "returnOnAssets"
    return_on_invested_capital := pyGet km "returnOnInvestedCapital"
    asset_turnover := pyGet ratio "assetTurnover"
    inventory_turnover := pyGet ratio "inventoryTurnover"
    receivables_turnover := pyGet ratio "receivablesTurnover"
    days_sales_outstanding := pyGet km "daysOfSalesOutstanding"
    operating_cycle := pyGet km "operatingCycle"
    working_capital_turnover := pyGet ratio "workingCapitalTurnoverRatio"
    current_ratio := pyGet ratio "currentRatio"
    quick_ratio := pyGet ratio "quickRatio"
    cash_ratio := pyGet ratio "cashRatio"
    operating_cash_flow_ratio := pyGet ratio "operatingCashFlowRatio"
    debt_to_equity := pyGet ratio "debtToEquityRatio"
    debt_to_assets := pyGet ratio "debtToAssetsRatio"
    interest_coverage := pyGet ratio "interestCoverageRatio"
    revenue_growth := revenue_growth
    earnings_growth := earnings_growth
    book_value_growth := none
    earnings_per_share_growth := none
    free_cash_flow_growth := none
    operating_income_growth := none
    ebitda_growth := none
    payout_ratio := pyGet ratio "dividendPayoutRatio"
    earnings_per_share :=
      pyOr (pyGet ratio "netIncomePerShare")
        (if inc.isEmpty then none else pyGet inc "eps")
    book_value_per_share := pyGet ratio "bookValuePerShare"
    free_cash_flow_per_share := pyGet ratio "freeCashFlowPerShare" }

/-- The endpoint outcomes available to one _get_financial_metrics_fmp
call; the Premium flags model whether the response text of the ratios and
key-metrics endpoints contains the premium-subscription marker. -/
structure FmpEnv where
  hasKey : Bool
  ratios : PyResp (List Dict)
  keymetrics : PyResp (List Dict)
  income : PyResp (List Dict)
  profile : PyResp (List Dict)
  ratiosPremium : Bool
  keymetricsPremium : Bool

/-- api.py lines 406-534, _get_financial_metrics_fmp: four endpoint
fetches (an exception at any aborts the call to an empty result), a
premium-marker check, then one record per ratios entry up to limit.
Returns (records, requests made). -/
def get_financial_metrics_fmp (env : FmpEnv) (ticker end_date period : String)
    (limit : Nat) : List FinancialMetrics × Nat :=
  if ¬env.hasKey then ([], 0)
  else
    match env.ratios with
    | .exn _ => ([], 1)
    | .resp st1 ratiosBody =>
      match env.keymetrics with
      | .exn _ => ([], 2)
      | .resp st2 kmBody =>
        match env.income with
        | .exn _ => ([], 3)
        | .resp st3 incBody =>
          match env.profile with
          | .exn _ => ([], 4)
          | .resp st4 profBody =>
            if (st1 = 200 ∧ env.ratiosPremium) ∨
                (st2 = 200 ∧ env.keymetricsPremium) then ([], 4)
            else
              let ratios := if st1 = 200 then ratiosBody else []
              let keymetrics := if st2 = 200 then kmBody else []
              let income := if st3 = 200 then incBody else []
              let profile := if st4 = 200 then profBody else []
              if ratios.isEmpty then ([], 4)
              else
                (((ratios.take limit).enum).map fun p =>
                  fmp_metrics_item ticker end_date period keymetrics income
                    profile p.1 p.2, 4)

/-- api.py line 626: the financial-metrics cache key. -/
def metrics_cache_key (ticker period end_date : String) (limit : Nat) :
    String :=
  ticker ++ "_" ++ period ++ "_" ++ end_date ++ "_" ++ toString limit

/-- api.py lines 632-645: the fetch path of get_financial_metrics after a
cache miss - Finnhub first, FMP if Finnhub yielded nothing, return []
without caching the getter key when both are empty, write-through
otherwise. -/
def get_financial_metrics_fetch (fenv : FinnhubMetricsEnv) (menv : FmpEnv)
    (cache : MetricsCache) (ticker end_date period : String) (limit : Nat) :
    List FinancialMetrics × MetricsCache × Nat :=
  let r1 := get_financial_metrics_finnhub fenv cache ticker end_date period
    limit
  if r1.1.isEmpty then
    let r2 := get_financial_metrics_fmp menv ticker end_date period limit
    if r2.1.isEmpty then ([], r1.2.1, r1.2.2 + r2.2)
    else (r2.1,
      cacheSet r1.2.1 (metrics_cache_key ticker period end_date limit)
        (.records r2.1),
      r1.2.2 + r2.2)
  else (r1.1,
    cacheSet r1.2.1 (metrics_cache_key ticker period end_date limit)
      (.records r1.1),
    r1.2.2)

/-- api.py lines 617-645, get_financial_metrics: cache-aside around the
Finnhub-FMP fallback chain.  A hit on a supplement-shaped payload would
make the Python list comprehension FinancialMetrics(**d) raise, modelled
as an error result. -/
def get_financial_metrics (fenv : FinnhubMetricsEnv) (menv : FmpEnv)
    (cache : MetricsCache) (ticker end_date period : String) (limit : Nat) :
    Except String (List FinancialMetrics × MetricsCache × Nat) :=
  match cacheGet cache (metrics_cache_key ticker period end_date limit) with
  | some (.records ms) =>
    if ms.isEmpty then
      .ok (get_financial_metrics_fetch fenv menv cache ticker end_date period
        limit)
    else .ok (ms, cache, 0)
  | some (.supplement _ _) => .error "ValidationError"
  | none =>
    .ok (get_financial_metrics_fetch fenv menv cache ticker end_date period
      limit)

theorem finnhub_metrics_calls_pos (env : FinnhubMetricsEnv)
    (cache : MetricsCache) (ticker end_date period : String) (limit : Nat) :
    0 < (get_financial_metrics_finnhub env cache ticker end_date period
      limit).2.2 := by
  simp only [get_financial_metrics_finnhub]
  cases env.metric with
  | none => simp
  | some metric =>
    dsimp only
    split
    · simp
    · simp

theorem finnhub_metrics_empty (env : FinnhubMetricsEnv)
    (cache : MetricsCache) (ticker end_date period : String) (limit : Nat)
    (h : (get_financial_metrics_finnhub env cache ticker end_date period
      limit).1 = []) :
    (get_financial_metrics_finnhub env cache ticker end_date period
      limit).2.1 = cache := by
  revert h
  simp only [get_financial_metrics_finnhub]
  cases env.metric with
  | none => intro _; rfl
  | some metric =>
    dsimp only
    split
    · intro _; rfl
    · intro h
      simp at h

theorem metrics_fetch_calls_pos (fenv : FinnhubMetricsEnv) (menv : FmpEnv)
    (cache : MetricsCache) (ticker end_date period : String) (limit : Nat) :
    0 < (get_financial_metrics_fetch fenv menv cache ticker end_date period
      limit).2.2 := by
  have h1 := finnhub_metrics_calls_pos fenv cache ticker end_date period limit
  simp only [get_financial_metrics_fetch]
  split
  · split
    · dsimp only; omega
    · dsimp only; omega
  · dsimp only; omega

theorem metrics_fetch_empty (fenv : FinnhubMetricsEnv) (menv : FmpEnv)
    (cache : MetricsCache) (ticker end_date period : String) (limit : Nat)
    (h : (get_financial_metrics_fetch fenv menv cache ticker end_date period
      limit).1 = []) :
    (get_financial_metrics_fetch fenv menv cache ticker end_date period
      limit).2.1 = cache := by
  revert h
  simp only [get_financial_metrics_fetch]
  split
  · next hr1 =>
    split
    · intro _
      dsimp only
      exact finnhub_metrics_empty fenv cache ticker end_date period limit
        (by simpa using hr1)
    · next hr2 =>
      intro h
      dsimp only at h
      simp [h] at hr2
  · next hr1 =>
    intro h
    dsimp only at h
    simp [h] at hr1

theorem metrics_fetch_nonempty (fenv : FinnhubMetricsEnv) (menv : FmpEnv)
    (cache : MetricsCache) (ticker end_date period : String) (limit : Nat)
    (h : (get_financial_metrics_fetch fenv menv cache ticker end_date period
      limit).1 ≠ []) :
    cacheGet (get_financial_metrics_fetch fenv menv cache ticker end_date
        period limit).2.1 (metrics_cache_key ticker period end_date limit) =
      some (.records (get_financial_metrics_fetch fenv menv cache ticker
        end_date period limit).1) := by
  revert h
  simp only [get_financial_metrics_fetch]
  split
  · split
    · intro h; exact absurd rfl h
    · intro _
      dsimp only
      rw [cacheGet_cacheSet]
  · intro _
    dsimp only
    rw [cacheGet_cacheSet]

theorem get_financial_metrics_empty_no_write (fenv : FinnhubMetricsEnv)
    (menv : FmpEnv) (cache : MetricsCache)
    (ticker end_date period : String) (limit : Nat)
    (ms : List FinancialMetrics) (c' : MetricsCache) (n : Nat)
    (h : get_financial_metrics fenv menv cache ticker end_date period limit =
      .ok (ms, c', n)) (hms : ms = []) :
    c' = cache ∧
    ∀ (fenv2 : FinnhubMetricsEnv) (menv2 : FmpEnv),
      ∃ ms2 c2 n2,
        get_financial_metrics fenv2 menv2 c' ticker end_date period limit =
          .ok (ms2, c2, n2) ∧ 0 < n2 := by
  subst hms
  revert h
  simp only [get_financial_metrics]
  cases hcg : cacheGet cache (metrics_cache_key ticker period end_date limit)
    with
  | none =>
    intro h
    have hA : get_financial_metrics_fetch fenv menv cache ticker end_date
        period limit = ([], c', n) := by simpa using h
    have h1 : (get_financial_metrics_fetch fenv menv cache ticker end_date
        period limit).1 = [] := by rw [hA]
    have h2 : (get_financial_metrics_fetch fenv menv cache ticker end_date
        period limit).2.1 = c' := by rw [hA]
    have hcc : c' = cache := by
      rw [← h2]
      exact metrics_fetch_empty fenv menv cache ticker end_date period limit h1
    subst hcc
    refine ⟨rfl, fun fenv2 menv2 => ?_⟩
    simp only [get_financial_metrics, hcg]
    exact ⟨_, _, _, rfl,
      metrics_fetch_calls_pos fenv2 menv2 c' ticker end_date period limit⟩
  | some payload =>
    cases payload with
    | supplement r km => intro h; simp at h
    | records ms0 =>
      dsimp only
      by_cases hemp : ms0.isEmpty
      · rw [if_pos hemp]
        intro h
        have hA : get_financial_metrics_fetch fenv menv cache ticker end_date
            period limit = ([], c', n) := by simpa using h
        have h1 : (get_financial_metrics_fetch fenv menv cache ticker end_date
            period limit).1 = [] := by rw [hA]
        have h2 : (get_financial_metrics_fetch fenv menv cache ticker end_date
            period limit).2.1 = c' := by rw [hA]
        have hcc : c' = cache := by
          rw [← h2]
          exact metrics_fetch_empty fenv menv cache ticker end_date period
            limit h1
        subst hcc
        refine ⟨rfl, fun fenv2 menv2 => ?_⟩
        simp only [get_financial_metrics, hcg]
        rw [if_pos hemp]
        exact ⟨_, _, _, rfl,
          metrics_fetch_calls_pos fenv2 menv2 c' ticker end_date period
            limit⟩
      · rw [if_neg hemp]
        intro h
        simp only [Except.ok.injEq, Prod.mk.injEq] at h
        obtain ⟨h1, _, _⟩ := h
        rw [h1] at hemp
        simp at hemp

theorem get_financial_metrics_second_call (fenv : FinnhubMetricsEnv)
    (menv : FmpEnv) (cache : MetricsCache)
    (ticker end_date period : String) (limit : Nat)
    (ms : List FinancialMetrics) (c' : MetricsCache) (n : Nat)
    (h : get_financial_metrics fenv menv cache ticker end_date period limit =
      .ok (ms, c', n)) (hms : ms ≠ []) :
    ∀ (fenv2 : FinnhubMetricsEnv) (menv2 : FmpEnv),
      get_financial_metrics fenv2 menv2 c' ticker end_date period limit =
        .ok (ms, c', 0) := by
  have hkey : cacheGet c' (metrics_cache_key ticker period end_date limit) =
      some (.records ms) := by
    revert h
    simp only [get_financial_metrics]
    cases hcg : cacheGet cache (metrics_cache_key ticker period end_date
      limit) with
    | none =>
      intro h
      have hA : get_financial_metrics_fetch fenv menv cache ticker end_date
          period limit = (ms, c', n) := by simpa using h
      have h1 : ms = (get_financial_metrics_fetch fenv menv cache ticker
          end_date period limit).1 := by rw [hA]
      have h2 : c' = (get_financial_metrics_fetch fenv menv cache ticker
          end_date period limit).2.1 := by rw [hA]
      rw [h1, h2]
      exact metrics_fetch_nonempty fenv menv cache ticker end_date period
        limit (by rw [← h1]; exact hms)
    | some payload =>
      cases payload with
      | supplement r km => intro h; simp at h
      | records ms0 =>
        dsimp only
        by_cases hemp : ms0.isEmpty
        · rw [if_pos hemp]
          intro h
          have hA : get_financial_metrics_fetch fenv menv cache ticker
              end_date period limit = (ms, c', n) := by simpa using h
          have h1 : ms = (get_financial_metrics_fetch fenv menv cache ticker
              end_date period limit).1 := by rw [hA]
          have h2 : c' = (get_financial_metrics_fetch fenv menv cache ticker
              end_date period limit).2.1 := by rw [hA]
          rw [h1, h2]
          exact metrics_fetch_nonempty fenv menv cache ticker end_date period
            limit (by rw [← h1]; exact hms)
        · rw [if_neg hemp]
          intro h
          simp only [Except.ok.injEq, Prod.mk.injEq] at h
          obtain ⟨h1, h2, _⟩ := h
          rw [← h1, ← h2]
          exact hcg
  intro fenv2 menv2
  have hemp : ms.isEmpty = false := by
    cases hr : ms with
    | nil => exact absurd hr hms
    | cons a t => rfl
  simp only [get_financial_metrics, hkey, hemp, Bool.false_eq_true, if_false]

/-- A non-empty Finnhub profile dict that lacks marketCapitalization. -/
def profileNoMc : Dict := [("shareOutstanding", .num 1000)]

/-- A concrete environment whose profile lacks the market-cap field. -/
def c8Env : FinnhubMetricsEnv :=
  { metric := some [("peTTM", .num 10)]
    profile := some profileNoMc
    fmp_api_key := false
    fmpRatios := .resp 200 []
    fmpKeymetrics := .resp 200 [] }

/-- Counterexample to C8: with a profile present but lacking
marketCapitalization the market_cap of the canonical record is 0 (the .get
default scaled by a million), not None. -/
theorem market_cap_zero_when_absent :
    pyGet profileNoMc "marketCapitalization" = none ∧
    (get_financial_metrics_finnhub c8Env [] "AAPL" "2024-06-30" "ttm"
        10).1.head?.map (fun m => m.market_cap) = some (some (.num 0)) ∧
    (get_financial_metrics_finnhub c8Env [] "AAPL" "2024-06-30" "ttm"
        10).1.head?.map (fun m => m.market_cap) ≠ some none := by
  have h0 : pyGetNumD profileNoMc "marketCapitalization" 0 = 0 := by decide
  have hne : profileNoMc.isEmpty = false := by decide
  have hmc : finnhub_profile_market_cap (some profileNoMc) =
      some (.num 0) := by
    simp only [finnhub_profile_market_cap, hne, Bool.false_eq_true, if_false,
      h0, zero_mul]
  refine ⟨by decide, ?_, ?_⟩
  · simp +decide [get_financial_metrics_finnhub, c8Env, hmc,
      finnhub_metrics_record]
  · simp +decide [get_financial_metrics_finnhub, c8Env, hmc,
      finnhub_metrics_record]

/-- C8 as amended: the dedicated market-cap getter
(_get_market_cap_finnhub) does return None for an absent field, and other
canonical fields are None whenever no consulted provider carries them, but
inside _get_financial_metrics_finnhub a present profile lacking
marketCapitalization yields market_cap 0 (the Python .get default, scaled)
rather than None; only a falsy profile yields None there. -/
theorem absent_field_representation :
    get_market_cap_finnhub none = none ∧
    (∀ d : Dict, pyGet d "marketCapitalization" = none →
      get_market_cap_finnhub (some d) = none) ∧
    (∀ p : Dict, p ≠ [] → pyGet p "marketCapitalization" = none →
      finnhub_profile_market_cap (some p) = some (.num 0)) ∧
    finnhub_profile_market_cap none = none ∧
    (∀ ticker end_date period currency : String, ∀ mc : Option JVal,
      ∀ metric fmp_ratios fmp_keymetrics : Dict,
      pyGet metric "enterpriseValue" = none →
      pyGet fmp_keymetrics "daysOfSalesOutstanding" = none →
      (finnhub_metrics_record ticker end_date period currency mc metric
        fmp_ratios fmp_keymetrics).enterprise_value = none ∧
      (finnhub_metrics_record ticker end_date period currency mc metric
        fmp_ratios fmp_keymetrics).days_sales_outstanding = none) := by
  refine ⟨rfl, ?_, ?_, rfl, ?_⟩
  · intro d hd
    simp only [get_market_cap_finnhub, hd]
    split
    · rfl
    · simp [truthy]
  · intro p hp hmc
    have hemp : p.isEmpty = false := by
      cases p with
      | nil => exact absurd rfl hp
      | cons a t => rfl
    simp only [finnhub_profile_market_cap, hemp, Bool.false_eq_true, if_false,
      pyGetNumD, hmc]
    norm_num
  · intro ticker end_date period currency mc metric fmp_ratios fmp_keymetrics
      h1 h2
    exact ⟨by simp [finnhub_metrics_record, h1],
      by simp [finnhub_metrics_record, h2]⟩

/-- Witness for absent_field_representation at concrete dicts. -/
theorem absent_field_representation_witness :
    get_market_cap_finnhub (some profileNoMc) = none ∧
    finnhub_profile_market_cap (some profileNoMc) = some (.num 0) :=
  ⟨absent_field_representation.2.1 profileNoMc (by decide),
   absent_field_representation.2.2.1 profileNoMc (by decide) (by decide)⟩

/-! ### Date-paginated feeds: insider trades and company news
(api.py lines 689-751 and 754-816) and line items (lines 648-686) -/

/-- An insider-trade record; filing_date is the only field api.py reads
(the pagination cursor), payload stands for the remaining record fields,
which the control flow never inspects. -/
structure InsiderTrade where
  filing_date : String
  payload : String
deriving DecidableEq, Repr

/-- A company-news record; date is the only field api.py reads. -/
structure CompanyNews where
  date : String
  payload : String
deriving DecidableEq, Repr

/-- A line-item record; api.py never inspects its fields. -/
structure LineItem where
  payload : String
deriving DecidableEq, Repr

/-- Python s.split("T")[0]: the prefix before the first T (the whole
string when no T occurs).  Defined over the character list so that
concrete instances reduce inside the kernel. -/
def dateOnly (s : String) : String := ⟨s.data.takeWhile (fun c => c ≠ 'T')⟩

/-- Python min of two strings (ties keep the left argument, like min). -/
def strMin (a b : String) : String := if strLe a b then a else b

/-- Python min(trade.filing_date for trade in ts); only called on
non-empty pages (api.py guards with the emptiness break first). -/
def minFilingDate (ts : List InsiderTrade) : String :=
  match ts with
  | [] => ""
  | t :: rest => rest.foldl (fun acc tr => strMin acc tr.filing_date)
      t.filing_date

/-- Python min(news.date for news in ns). -/
def minNewsDate (ns : List CompanyNews) : String :=
  match ns with
  | [] => ""
  | n :: rest => rest.foldl (fun acc nw => strMin acc nw.date) n.date

/-- Python s or None collapsing: an empty string is falsy, so a
start_date of "" behaves exactly like None everywhere it is tested. -/
def pyStrOpt (s : Option String) : Option String :=
  match s with
  | some s => if s = "" then none else some s
  | none => none

/-- What the insider-trades endpooint would answer: per cursor date and
per retry attempt, the outcome; a body of none models a response whose
json or model validation fails (absorbed by the try block of the getter). -/
structure TradesEnv where
  fetch : String → Nat → PyResp (Option (List InsiderTrade))

/-- What the news endpoint would answer, same shape. -/
structure NewsEnv where
  fetch : String → Nat → PyResp (Option (List CompanyNews))

/-- What the line-items endpoint would answer per retry attempt. -/
structure LineItemsEnv where
  post : Nat → PyResp (Option (List LineItem))

/-- api.py lines 713-744, the while-True pagination loop of
get_insider_trades, with fuel counting the iterations still observed and
pages counting the iterations performed.  A transport exception escapes as
an error (nothing catches it); a non-200 status, an unparseable body or an
empty page break with the records accumulated so far; without a start_date
or on a short page the loop stops after one accumulation; otherwise the
cursor moves to the date part of the minimum filing date and the loop
continues unless that cursor is at or before start_date.  There is no
guard against a cursor that fails to decrease. -/
def insider_loop (env : TradesEnv) (start_date : Option String)
    (limit : Nat) :
    Nat → String → List InsiderTrade → Nat →
    Option (Except String (List InsiderTrade × Nat))
  | 0, _, _, _ => none
  | fuel + 1, current_end_date, all_trades, pages =>
    match make_api_request (env.fetch current_end_date) 3 with
    | .error m => some (.error m)
    | .ok (_, status, body) =>
      if status ≠ 200 then some (.ok (all_trades, pages + 1))
      else
        match body with
        | none => some (.ok (all_trades, pages + 1))
        | some insider_trades =>
          if insider_trades.isEmpty then some (.ok (all_trades, pages + 1))
          else
            let all_trades := all_trades ++ insider_trades
            match start_date with
            | none => some (.ok (all_trades, pages + 1))
            | some sd =>
              if insider_trades.length < limit then
                some (.ok (all_trades, pages + 1))
              else
                let current_end_date := dateOnly (minFilingDate insider_trades)
                if strLe current_end_date sd then
                  some (.ok (all_trades, pages + 1))
                else
                  insider_loop env start_date limit fuel current_end_date
                    all_trades (pages + 1)

/-- api.py lines 778-809, the identical pagination loop of
get_company_news over the news date field. -/
def news_loop (env : NewsEnv) (start_date : Option String) (limit : Nat) :
    Nat → String → List CompanyNews → Nat →
    Option (Except String (List CompanyNews × Nat))
  | 0, _, _, _ => none
  | fuel + 1, current_end_date, all_news, pages =>
    match make_api_request (env.fetch current_end_date) 3 with
    | .error m => some (.error m)
    | .ok (_, status, body) =>
      if status ≠ 200 then some (.ok (all_news, pages + 1))
      else
        match body with
        | none => some (.ok (all_news, pages + 1))
        | some company_news =>
          if company_news.isEmpty then some (.ok (all_news, pages + 1))
          else
            let all_news := all_news ++ company_news
            match start_date with
            | none => some (.ok (all_news, pages + 1))
            | some sd =>
              if company_news.length < limit then
                some (.ok (all_news, pages + 1))
              else
                let current_end_date := dateOnly (minNewsDate company_news)
                if strLe current_end_date sd then
                  some (.ok (all_news, pages + 1))
                else
                  news_loop env start_date limit fuel current_end_date
                    all_news (pages + 1)

/-- api.py line 698: the insider-trades (and news, line 763) cache key. -/
def feed_cache_key (ticker : String) (start_date : Option String)
    (end_date : String) (limit : Nat) : String :=
  ticker ++ "_" ++ start_date.getD "none" ++ "_" ++ end_date ++ "_" ++
    toString limit

/-- api.py lines 689-751, get_insider_trades: cache-aside around the
pagination loop; an empty final accumulation is returned without caching.
The third result component counts pages fetched (provider requests). -/
def get_insider_trades (env : TradesEnv)
    (cache : List (String × List InsiderTrade)) (ticker end_date : String)
    (start_date : Option String) (limit : Nat) (fuel : Nat) :
    Option (Except String
      (List InsiderTrade × List (String × List InsiderTrade) × Nat)) :=
  let sd := pyStrOpt start_date
  let cache_key := feed_cache_key ticker sd end_date limit
  let fetchPath :=
    match insider_loop env sd limit fuel end_date [] 0 with
    | none => none
    | some (.error m) => some (.error m)
    | some (.ok (all_trades, pages)) =>
      if all_trades.isEmpty then some (.ok ([], cache, pages))
      else some (.ok (all_trades, cacheSet cache cache_key all_trades, pages))
  match cacheGet cache cache_key with
  | some cached_data =>
    if cached_data.isEmpty then fetchPath
    else some (.ok (cached_data, cache, 0))
  | none => fetchPath

/-- api.py lines 754-816, get_company_news: same shape over news
records. -/
def get_company_news (env : NewsEnv)
    (cache : List (String × List CompanyNews)) (ticker end_date : String)
    (start_date : Option String) (limit : Nat) (fuel : Nat) :
    Option (Except String
      (List CompanyNews × List (String × List CompanyNews) × Nat)) :=
  let sd := pyStrOpt start_date
  let cache_key := feed_cache_key ticker sd end_date limit
  let fetchPath :=
    match news_loop env sd limit fuel end_date [] 0 with
    | none => none
    | some (.error m) => some (.error m)
    | some (.ok (all_news, pages)) =>
      if all_news.isEmpty then some (.ok ([], cache, pages))
      else some (.ok (all_news, cacheSet cache cache_key all_news, pages))
  match cacheGet cache cache_key with
  | some cached_data =>
    if cached_data.isEmpty then fetchPath
    else some (.ok (cached_data, cache, 0))
  | none => fetchPath

/-- api.py lines 648-686, search_line_items: one request through
_make_api_request; non-200, unparseable or empty results give []; a
non-empty result is truncated to limit.  No cache is involved.  A
transport exception escapes. -/
def search_line_items (env : LineItemsEnv) (_ticker : String)
    ( _line_items : List String) (_end_date _period : String) (limit : Nat) :
    Except String (List LineItem) :=
  match make_api_request env.post 3 with
  | .error m => .error m
  | .ok (_, status, body) =>
    if status ≠ 200 then .ok []
    else
      match body with
      | none => .ok []
      | some search_results =>
        if search_results.isEmpty then .ok []
        else .ok (search_results.take limit)

theorem make_api_request_ok_of_no_exn {β : Type} (t : Nat → PyResp β)
    (max_retries : Nat) (hnx : ∀ i, ∀ m, t i ≠ .exn m) :
    ∃ d st b, make_api_request t max_retries = .ok (d, st, b) :=
  make_api_request_go_no_exn t max_retries hnx (max_retries + 1) 0 []
    (Nat.zero_le _) (by omega)

/-- A full page - two records at page limit 2 - whose earliest filing
date has date part 2024-01-05, equal to the cursor it is served for. -/
def stallPage : List InsiderTrade :=
  [⟨"2024-01-05T00:00:00", "a"⟩, ⟨"2024-01-05T10:30:00", "b"⟩]

/-- A provider that answers every insider-trades request with the same
full page: realistic whenever more than limit records share one filing
date. -/
def stallEnv : TradesEnv := ⟨fun _ _ => .resp 200 (some stallPage)⟩

/-- The same stalled scenario for the news feed. -/
def stallNewsPage : List CompanyNews :=
  [⟨"2024-01-05T00:00:00", "a"⟩, ⟨"2024-01-05T10:30:00", "b"⟩]

/-- A provider that answers every news request with the same full page. -/
def stallNewsEnv : NewsEnv := ⟨fun _ _ => .resp 200 (some stallNewsPage)⟩

/-- C3 fails on the code: there is no stalled-cursor guard and no
pagination error.  With page limit 2 and two matching records the claimed
iteration ceiling is ceil(2/2) + 1 = 2, yet with a provider whose full
page never moves the cursor below the window start both getters are still
running after 10 iterations (the fueled loop returns none, meaning the
while-True loop of the source has not terminated). -/
theorem pagination_stall_loops :
    get_insider_trades stallEnv [] "AAPL" "2024-01-05" (some "2024-01-01")
      2 10 = none ∧
    get_company_news stallNewsEnv [] "AAPL" "2024-01-05" (some "2024-01-01")
      2 10 = none :=
  ⟨rfl, rfl⟩

/-- The stall is not an artifact of the fuel bound: for a provider that
keeps serving a full page whose minimum date part equals the cursor, and a
cursor still after start_date, the insider-trades loop fails to terminate
within any number of iterations. -/
theorem insider_loop_stalled (env : TradesEnv) (sd c0 : String) (limit : Nat)
    (page : List InsiderTrade)
    (hresp : env.fetch c0 0 = .resp 200 (some page))
    (hfull : page.length = limit) (hpos : 0 < limit)
    (hmin : dateOnly (minFilingDate page) = c0)
    (hsd : strLe c0 sd = false) :
    ∀ fuel acc pages,
      insider_loop env (some sd) limit fuel c0 acc pages = none := by
  intro fuel
  induction fuel with
  | zero => intro acc pages; rfl
  | succ fuel ih =>
    intro acc pages
    have hreq : make_api_request (env.fetch c0) 3 =
        .ok ([], 200, some page) := by
      simp [make_api_request, make_api_request_go, hresp]
    have hne : page.isEmpty = false := by
      cases hp : page with
      | nil => rw [hp] at hfull; simp at hfull; omega
      | cons a t => rfl
    simp only [insider_loop, hreq, hne, hfull, hmin, hsd]
    simp [ih]

/-- Witness for insider_loop_stalled at the concrete stalled provider. -/
theorem insider_loop_stalled_witness :
    insider_loop stallEnv (some "2024-01-01") 2 3 "2024-01-05" [] 0 = none :=
  insider_loop_stalled stallEnv "2024-01-01" "2024-01-05" 2 stallPage rfl
    rfl (by decide) (by decide) (by decide) 3 [] 0

/-- A transport layer that raises on every attempt (a requests timeout or
connection error). -/
def timeoutTradesEnv : TradesEnv := ⟨fun _ _ => .exn "ReadTimeout"⟩

/-- The raising transport for the news endpoint. -/
def timeoutNewsEnv : NewsEnv := ⟨fun _ _ => .exn "ReadTimeout"⟩

/-- The raising transport for the line-items endpoint. -/
def timeoutLineItemsEnv : LineItemsEnv := ⟨fun _ => .exn "ReadTimeout"⟩

/-- Counterexample to C4: _make_api_request has no exception handling and
the financialdatasets getters do not wrap it in try, so a transport-level
timeout propagates to the caller of get_insider_trades, get_company_news
and search_line_items instead of yielding an empty list. -/
theorem transport_exception_escapes :
    get_insider_trades timeoutTradesEnv [] "AAPL" "2024-03-01" none 1000 5 =
      some (.error "ReadTimeout") ∧
    get_company_news timeoutNewsEnv [] "AAPL" "2024-03-01" none 1000 5 =
      some (.error "ReadTimeout") ∧
    search_line_items timeoutLineItemsEnv "AAPL" ["revenue"] "2024-03-01"
      "ttm" 10 = .error "ReadTimeout" :=
  ⟨rfl, rfl, rfl⟩

theorem insider_loop_no_error (env : TradesEnv) (sd : Option String)
    (limit : Nat) (hnx : ∀ c i m, env.fetch c i ≠ .exn m) :
    ∀ fuel cursor acc pages r,
      insider_loop env sd limit fuel cursor acc pages = some r →
      ∃ l n, r = .ok (l, n) := by
  intro fuel
  induction fuel with
  | zero => intro cursor acc pages r h; simp [insider_loop] at h
  | succ fuel ih =>
    intro cursor acc pages r h
    obtain ⟨d, st, b, hok⟩ :=
      make_api_request_ok_of_no_exn (env.fetch cursor) 3 (hnx cursor)
    revert h
    simp only [insider_loop, hok]
    split
    · intro h; exact ⟨_, _, (Option.some.inj h).symm⟩
    · cases b with
      | none => intro h; exact ⟨_, _, (Option.some.inj h).symm⟩
      | some page =>
        dsimp only
        split
        · intro h; exact ⟨_, _, (Option.some.inj h).symm⟩
        · cases sd with
          | none => intro h; exact ⟨_, _, (Option.some.inj h).symm⟩
          | some s =>
            dsimp only
            split
            · intro h; exact ⟨_, _, (Option.some.inj h).symm⟩
            · split
              · intro h; exact ⟨_, _, (Option.some.inj h).symm⟩
              · exact ih _ _ _ r

theorem news_loop_no_error (env : NewsEnv) (sd : Option String)
    (limit : Nat) (hnx : ∀ c i m, env.fetch c i ≠ .exn m) :
    ∀ fuel cursor acc pages r,
      news_loop env sd limit fuel cursor acc pages = some r →
      ∃ l n, r = .ok (l, n) := by
  intro fuel
  induction fuel with
  | zero => intro cursor acc pages r h; simp [news_loop] at h
  | succ fuel ih =>
    intro cursor acc pages r h
    obtain ⟨d, st, b, hok⟩ :=
      make_api_request_ok_of_no_exn (env.fetch cursor) 3 (hnx cursor)
    revert h
    simp only [news_loop, hok]
    split
    · intro h; exact ⟨_, _, (Option.some.inj h).symm⟩
    · cases b with
      | none => intro h; exact ⟨_, _, (Option.some.inj h).symm⟩
      | some page =>
        dsimp only
        split
        · intro h; exact ⟨_, _, (Option.some.inj h).symm⟩
        · cases sd with
          | none => intro h; exact ⟨_, _, (Option.some.inj h).symm⟩
          | some s =>
            dsimp only
            split
            · intro h; exact ⟨_, _, (Option.some.inj h).symm⟩
            · split
              · intro h; exact ⟨_, _, (Option.some.inj h).symm⟩
              · exact ih _ _ _ r

/-- C4 as amended: for rate limits, non-2xx statuses and malformed bodies
every getter indeed returns a list and never an error, and get_prices and
get_financial_metrics absorb all provider failures; but a transport-level
exception (timeout, connection error) propagates out of the
financialdatasets getters, because _make_api_request and their call sites
have no exception handling.  Formally: whenever the transport never
raises, search_line_items returns a list, and any terminating
get_insider_trades or get_company_news call returns a list. -/
theorem no_raise_without_transport_exn :
    (∀ (env : LineItemsEnv) (ticker : String) (line_items : List String)
        (end_date period : String) (limit : Nat),
      (∀ i m, env.post i ≠ .exn m) →
      ∃ l, search_line_items env ticker line_items end_date period limit =
        .ok l) ∧
    (∀ (env : TradesEnv) (cache : List (String × List InsiderTrade))
        (ticker end_date : String) (start_date : Option String)
        (limit fuel : Nat) (r : Except String
          (List InsiderTrade × List (String × List InsiderTrade) × Nat)),
      (∀ c i m, env.fetch c i ≠ .exn m) →
      get_insider_trades env cache ticker end_date start_date limit fuel =
        some r →
      ∃ l c2 n, r = .ok (l, c2, n)) ∧
    (∀ (env : NewsEnv) (cache : List (String × List CompanyNews))
        (ticker end_date : String) (start_date : Option String)
        (limit fuel : Nat) (r : Except String
          (List CompanyNews × List (String × List CompanyNews) × Nat)),
      (∀ c i m, env.fetch c i ≠ .exn m) →
      get_company_news env cache ticker end_date start_date limit fuel =
        some r →
      ∃ l c2 n, r = .ok (l, c2, n)) := by
  refine ⟨?_, ?_, ?_⟩
  · intro env ticker line_items end_date period limit hnx
    obtain ⟨d, st, b, hok⟩ := make_api_request_ok_of_no_exn env.post 3 hnx
    simp only [search_line_items, hok]
    split
    · exact ⟨[], rfl⟩
    · cases b with
      | none => exact ⟨[], rfl⟩
      | some rs =>
        dsimp only
        split
        · exact ⟨[], rfl⟩
        · exact ⟨rs.take limit, rfl⟩
  · intro env cache ticker end_date start_date limit fuel r hnx h
    revert h
    simp only [get_insider_trades]
    cases hloop : insider_loop env (pyStrOpt start_date) limit fuel end_date
      [] 0 with
    | none =>
      cases hcg : cacheGet cache (feed_cache_key ticker
        (pyStrOpt start_date) end_date limit) with
      | none => intro h; simp at h
      | some cached_data =>
        dsimp only
        split
        · intro h; simp at h
        · intro h; exact ⟨_, _, _, (Option.some.inj h).symm⟩
    | some res =>
      obtain ⟨l, n, hres⟩ :=
        insider_loop_no_error env (pyStrOpt start_date) limit hnx fuel
          end_date [] 0 res hloop
      subst hres
      cases hcg : cacheGet cache (feed_cache_key ticker
        (pyStrOpt start_date) end_date limit) with
      | none =>
        dsimp only
        split
        · intro h; exact ⟨_, _, _, (Option.some.inj h).symm⟩
        · intro h; exact ⟨_, _, _, (Option.some.inj h).symm⟩
      | some cached_data =>
        dsimp only
        split
        · split
          · intro h; exact ⟨_, _, _, (Option.some.inj h).symm⟩
          · intro h; exact ⟨_, _, _, (Option.some.inj h).symm⟩
        · intro h; exact ⟨_, _, _, (Option.some.inj h).symm⟩
  · intro env cache ticker end_date start_date limit fuel r hnx h
    revert h
    simp only [get_company_news]
    cases hloop : news_loop env (pyStrOpt start_date) limit fuel end_date
      [] 0 with
    | none =>
      cases hcg : cacheGet cache (feed_cache_key ticker
        (pyStrOpt start_date) end_date limit) with
      | none => intro h; simp at h
      | some cached_data =>
        dsimp only
        split
        · intro h; simp at h
        · intro h; exact ⟨_, _, _, (Option.some.inj h).symm⟩
    | some res =>
      obtain ⟨l, n, hres⟩ :=
        news_loop_no_error env (pyStrOpt start_date) limit hnx fuel
          end_date [] 0 res hloop
      subst hres
      cases hcg : cacheGet cache (feed_cache_key ticker
        (pyStrOpt start_date) end_date limit) with
      | none =>
        dsimp only
        split
        · intro h; exact ⟨_, _, _, (Option.some.inj h).symm⟩
        · intro h; exact ⟨_, _, _, (Option.some.inj h).symm⟩
      | some cached_data =>
        dsimp only
        split
        · split
          · intro h; exact ⟨_, _, _, (Option.some.inj h).symm⟩
          · intro h; exact ⟨_, _, _, (Option.some.inj h).symm⟩
        · intro h; exact ⟨_, _, _, (Option.some.inj h).symm⟩

theorem insider_pages_pos (env : TradesEnv) (sd : Option String)
    (limit : Nat) :
    ∀ fuel cursor acc pages l p,
      insider_loop env sd limit fuel cursor acc pages = some (.ok (l, p)) →
      pages < p := by
  intro fuel
  induction fuel with
  | zero => intro cursor acc pages l p h; simp [insider_loop] at h
  | succ fuel ih =>
    intro cursor acc pages l p
    cases hok : make_api_request (env.fetch cursor) 3 with
    | error m =>
      simp only [insider_loop, hok]
      intro h; simp at h
    | ok t =>
      obtain ⟨d, st, b⟩ := t
      simp only [insider_loop, hok]
      split
      · intro h
        simp only [Option.some.injEq, Except.ok.injEq, Prod.mk.injEq] at h
        omega
      · cases b with
        | none =>
          intro h
          simp only [Option.some.injEq, Except.ok.injEq, Prod.mk.injEq] at h
          omega
        | some page =>
          dsimp only
          split
          · intro h
            simp only [Option.some.injEq, Except.ok.injEq, Prod.mk.injEq] at h
            omega
          · cases sd with
            | none =>
              intro h
              simp only [Option.some.injEq, Except.ok.injEq,
                Prod.mk.injEq] at h
              omega
            | some s =>
              dsimp only
              split
              · intro h
                simp only [Option.some.injEq, Except.ok.injEq,
                  Prod.mk.injEq] at h
                omega
              · split
                · intro h
                  simp only [Option.some.injEq, Except.ok.injEq,
                    Prod.mk.injEq] at h
                  omega
                · intro h
                  have := ih _ _ _ _ _ h
                  omega

theorem news_pages_pos (env : NewsEnv) (sd : Option String) (limit : Nat) :
    ∀ fuel cursor acc pages l p,
      news_loop env sd limit fuel cursor acc pages = some (.ok (l, p)) →
      pages < p := by
  intro fuel
  induction fuel with
  | zero => intro cursor acc pages l p h; simp [news_loop] at h
  | succ fuel ih =>
    intro cursor acc pages l p
    cases hok : make_api_request (env.fetch cursor) 3 with
    | error m =>
      simp only [news_loop, hok]
      intro h; simp at h
    | ok t =>
      obtain ⟨d, st, b⟩ := t
      simp only [news_loop, hok]
      split
      · intro h
        simp only [Option.some.injEq, Except.ok.injEq, Prod.mk.injEq] at h
        omega
      · cases b with
        | none =>
          intro h
          simp only [Option.some.injEq, Except.ok.injEq, Prod.mk.injEq] at h
          omega
        | some page =>
          dsimp only
          split
          · intro h
            simp only [Option.some.injEq, Except.ok.injEq, Prod.mk.injEq] at h
            omega
          · cases sd with
            | none =>
              intro h
              simp only [Option.some.injEq, Except.ok.injEq,
                Prod.mk.injEq] at h
              omega
            | some s =>
              dsimp only
              split
              · intro h
                simp only [Option.some.injEq, Except.ok.injEq,
                  Prod.mk.injEq] at h
                omega
              · split
                · intro h
                  simp only [Option.some.injEq, Except.ok.injEq,
                    Prod.mk.injEq] at h
                  omega
                · intro h
                  have := ih _ _ _ _ _ h
                  omega

theorem get_insider_trades_empty_no_write (env : TradesEnv)
    (cache : List (String × List InsiderTrade)) (ticker end_date : String)
    (start_date : Option String) (limit fuel : Nat)
    (c' : List (String × List InsiderTrade)) (n : Nat)
    (h : get_insider_trades env cache ticker end_date start_date limit fuel =
      some (.ok ([], c', n))) :
    c' = cache ∧
    ∀ (env2 : TradesEnv) (fuel2 : Nat)
      (l2 : List InsiderTrade) (c2 : List (String × List InsiderTrade))
      (n2 : Nat),
      get_insider_trades env2 cache ticker end_date start_date limit fuel2 =
        some (.ok (l2, c2, n2)) → 0 < n2 := by
  revert h
  simp only [get_insider_trades]
  cases hcg : cacheGet cache (feed_cache_key ticker (pyStrOpt start_date)
    end_date limit) with
  | some cached_data =>
    dsimp only
    by_cases hemp : cached_data.isEmpty
    · rw [if_pos hemp]
      cases hloop : insider_loop env (pyStrOpt start_date) limit fuel
        end_date [] 0 with
      | none => intro h; simp at h
      | some res =>
        cases res with
        | error m => intro h; simp at h
        | ok pr =>
          obtain ⟨l, p⟩ := pr
          dsimp only
          split
          · intro h
            simp only [Option.some.injEq, Except.ok.injEq,
              Prod.mk.injEq] at h
            refine ⟨h.2.1.symm, ?_⟩
            intro env2 fuel2 l2 c2 n2
            cases hloop2 : insider_loop env2 (pyStrOpt start_date) limit
              fuel2 end_date [] 0 with
            | none => intro h2; simp at h2
            | some res2 =>
              cases res2 with
              | error m => intro h2; simp at h2
              | ok pr2 =>
                obtain ⟨l2', p2⟩ := pr2
                have hp2 := insider_pages_pos env2 (pyStrOpt start_date)
                  limit fuel2 end_date [] 0 l2' p2 hloop2
                dsimp only
                split
                · intro h2
                  simp only [Option.some.injEq, Except.ok.injEq,
                    Prod.mk.injEq] at h2
                  omega
                · intro h2
                  simp only [Option.some.injEq, Except.ok.injEq,
                    Prod.mk.injEq] at h2
                  omega
          · next hl =>
            intro h
            simp only [Option.some.injEq, Except.ok.injEq,
              Prod.mk.injEq] at h
            exact absurd h.1.symm (by simpa using hl)
    · rw [if_neg hemp]
      intro h
      simp only [Option.some.injEq, Except.ok.injEq, Prod.mk.injEq] at h
      rw [h.1] at hemp
      simp at hemp
  | none =>
    cases hloop : insider_loop env (pyStrOpt start_date) limit fuel
      end_date [] 0 with
    | none => intro h; simp at h
    | some res =>
      cases res with
      | error m => intro h; simp at h
      | ok pr =>
        obtain ⟨l, p⟩ := pr
        dsimp only
        split
        · intro h
          simp only [Option.some.injEq, Except.ok.injEq, Prod.mk.injEq] at h
          refine ⟨h.2.1.symm, ?_⟩
          intro env2 fuel2 l2 c2 n2
          cases hloop2 : insider_loop env2 (pyStrOpt start_date) limit fuel2
            end_date [] 0 with
          | none => intro h2; simp at h2
          | some res2 =>
            cases res2 with
            | error m => intro h2; simp at h2
            | ok pr2 =>
              obtain ⟨l2', p2⟩ := pr2
              have hp2 := insider_pages_pos env2 (pyStrOpt start_date)
                limit fuel2 end_date [] 0 l2' p2 hloop2
              dsimp only
              split
              · intro h2
                simp only [Option.some.injEq, Except.ok.injEq,
                  Prod.mk.injEq] at h2
                omega
              · intro h2
                simp only [Option.some.injEq, Except.ok.injEq,
                  Prod.mk.injEq] at h2
                omega
        · next hl =>
          intro h
          simp only [Option.some.injEq, Except.ok.injEq, Prod.mk.injEq] at h
          exact absurd h.1.symm (by simpa using hl)

theorem get_insider_trades_second_call (env : TradesEnv)
    (cache : List (String × List InsiderTrade)) (ticker end_date : String)
    (start_date : Option String) (limit fuel : Nat)
    (l : List InsiderTrade) (c' : List (String × List InsiderTrade))
    (n : Nat)
    (h : get_insider_trades env cache ticker end_date start_date limit fuel =
      some (.ok (l, c', n))) (hl : l ≠ []) :
    ∀ (env2 : TradesEnv) (fuel2 : Nat),
      get_insider_trades env2 c' ticker end_date start_date limit fuel2 =
        some (.ok (l, c', 0)) := by
  have hkey : cacheGet c' (feed_cache_key ticker (pyStrOpt start_date)
      end_date limit) = some l := by
    revert h
    simp only [get_insider_trades]
    cases hcg : cacheGet cache (feed_cache_key ticker (pyStrOpt start_date)
      end_date limit) with
    | some cached_data =>
      dsimp only
      by_cases hemp : cached_data.isEmpty
      · rw [if_pos hemp]
        cases hloop : insider_loop env (pyStrOpt start_date) limit fuel
          end_date [] 0 with
        | none => intro h; simp at h
        | some res =>
          cases res with
          | error m => intro h; simp at h
          | ok pr =>
            obtain ⟨l0, p⟩ := pr
            dsimp only
            split
            · intro h
              simp only [Option.some.injEq, Except.ok.injEq,
                Prod.mk.injEq] at h
              exact absurd h.1.symm hl
            · intro h
              simp only [Option.some.injEq, Except.ok.injEq,
                Prod.mk.injEq] at h
              rw [← h.1, ← h.2.1]
              exact cacheGet_cacheSet cache _ l0
      · rw [if_neg hemp]
        intro h
        simp only [Option.some.injEq, Except.ok.injEq, Prod.mk.injEq] at h
        rw [← h.1, ← h.2.1]
        exact hcg
    | none =>
      cases hloop : insider_loop env (pyStrOpt start_date) limit fuel
        end_date [] 0 with
      | none => intro h; simp at h
      | some res =>
        cases res with
        | error m => intro h; simp at h
        | ok pr =>
          obtain ⟨l0, p⟩ := pr
          dsimp only
          split
          · intro h
            simp only [Option.some.injEq, Except.ok.injEq,
              Prod.mk.injEq] at h
            exact absurd h.1.symm hl
          · intro h
            simp only [Option.some.injEq, Except.ok.injEq,
              Prod.mk.injEq] at h
            rw [← h.1, ← h.2.1]
            exact cacheGet_cacheSet cache _ l0
  intro env2 fuel2
  have hemp : l.isEmpty = false := by
    cases hr : l with
    | nil => exact absurd hr hl
    | cons a t => rfl
  simp only [get_insider_trades, hkey, hemp, Bool.false_eq_true, if_false]

theorem get_company_news_empty_no_write (env : NewsEnv)
    (cache : List (String × List CompanyNews)) (ticker end_date : String)
    (start_date : Option String) (limit fuel : Nat)
    (c' : List (String × List CompanyNews)) (n : Nat)
    (h : get_company_news env cache ticker end_date start_date limit fuel =
      some (.ok ([], c', n))) :
    c' = cache ∧
    ∀ (env2 : NewsEnv) (fuel2 : Nat)
      (l2 : List CompanyNews) (c2 : List (String × List CompanyNews))
      (n2 : Nat),
      get_company_news env2 cache ticker end_date start_date limit fuel2 =
        some (.ok (l2, c2, n2)) → 0 < n2 := by
  revert h
  simp only [get_company_news]
  cases hcg : cacheGet cache (feed_cache_key ticker (pyStrOpt start_date)
    end_date limit) with
  | some cached_data =>
    dsimp only
    by_cases hemp : cached_data.isEmpty
    · rw [if_pos hemp]
      cases hloop : news_loop env (pyStrOpt start_date) limit fuel
        end_date [] 0 with
      | none => intro h; simp at h
      | some res =>
        cases res with
        | error m => intro h; simp at h
        | ok pr =>
          obtain ⟨l, p⟩ := pr
          dsimp only
          split
          · intro h
            simp only [Option.some.injEq, Except.ok.injEq,
              Prod.mk.injEq] at h
            refine ⟨h.2.1.symm, ?_⟩
            intro env2 fuel2 l2 c2 n2
            cases hloop2 : news_loop env2 (pyStrOpt start_date) limit
              fuel2 end_date [] 0 with
            | none => intro h2; simp at h2
            | some res2 =>
              cases res2 with
              | error m => intro h2; simp at h2
              | ok pr2 =>
                obtain ⟨l2', p2⟩ := pr2
                have hp2 := news_pages_pos env2 (pyStrOpt start_date)
                  limit fuel2 end_date [] 0 l2' p2 hloop2
                dsimp only
                split
                · intro h2
                  simp only [Option.some.injEq, Except.ok.injEq,
                    Prod.mk.injEq] at h2
                  omega
                · intro h2
                  simp only [Option.some.injEq, Except.ok.injEq,
                    Prod.mk.injEq] at h2
                  omega
          · next hl =>
            intro h
            simp only [Option.some.injEq, Except.ok.injEq,
              Prod.mk.injEq] at h
            exact absurd h.1.symm (by simpa using hl)
    · rw [if_neg hemp]
      intro h
      simp only [Option.some.injEq, Except.ok.injEq, Prod.mk.injEq] at h
      rw [h.1] at hemp
      simp at hemp
  | none =>
    cases hloop : news_loop env (pyStrOpt start_date) limit fuel
      end_date [] 0 with
    | none => intro h; simp at h
    | some res =>
      cases res with
      | error m => intro h; simp at h
      | ok pr =>
        obtain ⟨l, p⟩ := pr
        dsimp only
        split
        · intro h
          simp only [Option.some.injEq, Except.ok.injEq, Prod.mk.injEq] at h
          refine ⟨h.2.1.symm, ?_⟩
          intro env2 fuel2 l2 c2 n2
          cases hloop2 : news_loop env2 (pyStrOpt start_date) limit fuel2
            end_date [] 0 with
          | none => intro h2; simp at h2
          | some res2 =>
            cases res2 with
            | error m => intro h2; simp at h2
            | ok pr2 =>
              obtain ⟨l2', p2⟩ := pr2
              have hp2 := news_pages_pos env2 (pyStrOpt start_date)
                limit fuel2 end_date [] 0 l2' p2 hloop2
              dsimp only
              split
              · intro h2
                simp only [Option.some.injEq, Except.ok.injEq,
                  Prod.mk.injEq] at h2
                omega
              · intro h2
                simp only [Option.some.injEq, Except.ok.injEq,
                  Prod.mk.injEq] at h2
                omega
        · next hl =>
          intro h
          simp only [Option.some.injEq, Except.ok.injEq, Prod.mk.injEq] at h
          exact absurd h.1.symm (by simpa using hl)

theorem get_company_news_second_call (env : NewsEnv)
    (cache : List (String × List CompanyNews)) (ticker end_date : String)
    (start_date : Option String) (limit fuel : Nat)
    (l : List CompanyNews) (c' : List (String × List CompanyNews)) (n : Nat)
    (h : get_company_news env cache ticker end_date start_date limit fuel =
      some (.ok (l, c', n))) (hl : l ≠ []) :
    ∀ (env2 : NewsEnv) (fuel2 : Nat),
      get_company_news env2 c' ticker end_date start_date limit fuel2 =
        some (.ok (l, c', 0)) := by
  have hkey : cacheGet c' (feed_cache_key ticker (pyStrOpt start_date)
      end_date limit) = some l := by
    revert h
    simp only [get_company_news]
    cases hcg : cacheGet cache (feed_cache_key ticker (pyStrOpt start_date)
      end_date limit) with
    | some cached_data =>
      dsimp only
      by_cases hemp : cached_data.isEmpty
      · rw [if_pos hemp]
        cases hloop : news_loop env (pyStrOpt start_date) limit fuel
          end_date [] 0 with
        | none => intro h; simp at h
        | some res =>
          cases res with
          | error m => intro h; simp at h
          | ok pr =>
            obtain ⟨l0, p⟩ := pr
            dsimp only
            split
            · intro h
              simp only [Option.some.injEq, Except.ok.injEq,
                Prod.mk.injEq] at h
              exact absurd h.1.symm hl
            · intro h
              simp only [Option.some.injEq, Except.ok.injEq,
                Prod.mk.injEq] at h
              rw [← h.1, ← h.2.1]
              exact cacheGet_cacheSet cache _ l0
      · rw [if_neg hemp]
        intro h
        simp only [Option.some.injEq, Except.ok.injEq, Prod.mk.injEq] at h
        rw [← h.1, ← h.2.1]
        exact hcg
    | none =>
      cases hloop : news_loop env (pyStrOpt start_date) limit fuel
        end_date [] 0 with
      | none => intro h; simp at h
      | some res =>
        cases res with
        | error m => intro h; simp at h
        | ok pr =>
          obtain ⟨l0, p⟩ := pr
          dsimp only
          split
          · intro h
            simp only [Option.some.injEq, Except.ok.injEq,
              Prod.mk.injEq] at h
            exact absurd h.1.symm hl
          · intro h
            simp only [Option.some.injEq, Except.ok.injEq,
              Prod.mk.injEq] at h
            rw [← h.1, ← h.2.1]
            exact cacheGet_cacheSet cache _ l0
  intro env2 fuel2
  have hemp : l.isEmpty = false := by
    cases hr : l with
    | nil => exact absurd hr hl
    | cons a t => rfl
  simp only [get_company_news, hkey, hemp, Bool.false_eq_true, if_false]

/-- A benign transport serving one short page, for the C4 witness. -/
def okTradesEnv : TradesEnv :=
  ⟨fun _ _ => .resp 200 (some [⟨"2024-02-20T00:00:00", "t1"⟩])⟩

/-- A benign transport for the line-items endpoint. -/
def okLineItemsEnv : LineItemsEnv := ⟨fun _ => .resp 200 (some [⟨"x"⟩])⟩

/-- Witness for no_raise_without_transport_exn: the exception-free
transports give list results. -/
theorem no_raise_without_transport_exn_witness :
    (∃ l, search_line_items okLineItemsEnv "AAPL" ["revenue"] "2024-03-01"
      "ttm" 10 = .ok l) ∧
    (∃ r, get_insider_trades okTradesEnv [] "AAPL" "2024-03-01" none 1000 5 =
      some r ∧ ∃ l c2 n, r = .ok (l, c2, n)) :=
  ⟨no_raise_without_transport_exn.1 okLineItemsEnv "AAPL" ["revenue"]
    "2024-03-01" "ttm" 10 (fun i m => by simp [okLineItemsEnv]),
   ⟨_, rfl, no_raise_without_transport_exn.2.1 okTradesEnv [] "AAPL"
     "2024-03-01" none 1000 5 _ (fun c i m => by simp [okTradesEnv]) rfl⟩⟩

/-- Return the payload of an ok result, or a default. -/
def exceptGetD {ε α : Type} (e : Except ε α) (d : α) : α :=
  match e with
  | .ok a => a
  | .error _ => d

/-- Return the payload of a terminating ok result, or a default. -/
def optExceptGetD {ε α : Type} (e : Option (Except ε α)) (d : α) : α :=
  match e with
  | some (.ok a) => a
  | _ => d

/-- C1: for each of the four cached getters, an empty fallback result
leaves the cache untouched (get_prices: fully unchanged; the others:
unchanged, stated through the returned cache), and a subsequent call with
identical parameters attempts the providers again - it performs at least
one outbound provider request rather than returning a cached empty
result. -/
theorem empty_result_never_cached :
    (∀ (env : PriceEnv) (cache : List (String × List Price))
        (ticker start_date end_date : String),
      (get_prices env cache ticker start_date end_date).records = [] →
      (get_prices env cache ticker start_date end_date).cache = cache ∧
      ∀ env2 : PriceEnv,
        0 < (get_prices env2 cache ticker start_date
          end_date).providerCalls) ∧
    (∀ (fenv : FinnhubMetricsEnv) (menv : FmpEnv) (cache : MetricsCache)
        (ticker end_date period : String) (limit : Nat)
        (ms : List FinancialMetrics) (c' : MetricsCache) (n : Nat),
      get_financial_metrics fenv menv cache ticker end_date period limit =
        .ok (ms, c', n) → ms = [] →
      c' = cache ∧
      ∀ (fenv2 : FinnhubMetricsEnv) (menv2 : FmpEnv),
        ∃ ms2 c2 n2,
          get_financial_metrics fenv2 menv2 c' ticker end_date period limit =
            .ok (ms2, c2, n2) ∧ 0 < n2) ∧
    (∀ (env : TradesEnv) (cache : List (String × List InsiderTrade))
        (ticker end_date : String) (start_date : Option String)
        (limit fuel : Nat) (c' : List (String × List InsiderTrade)) (n : Nat),
      get_insider_trades env cache ticker end_date start_date limit fuel =
        some (.ok ([], c', n)) →
      c' = cache ∧
      ∀ (env2 : TradesEnv) (fuel2 : Nat) (l2 : List InsiderTrade)
        (c2 : List (String × List InsiderTrade)) (n2 : Nat),
        get_insider_trades env2 cache ticker end_date start_date limit
          fuel2 = some (.ok (l2, c2, n2)) → 0 < n2) ∧
    (∀ (env : NewsEnv) (cache : List (String × List CompanyNews))
        (ticker end_date : String) (start_date : Option String)
        (limit fuel : Nat) (c' : List (String × List CompanyNews)) (n : Nat),
      get_company_news env cache ticker end_date start_date limit fuel =
        some (.ok ([], c', n)) →
      c' = cache ∧
      ∀ (env2 : NewsEnv) (fuel2 : Nat) (l2 : List CompanyNews)
        (c2 : List (String × List CompanyNews)) (n2 : Nat),
        get_company_news env2 cache ticker end_date start_date limit
          fuel2 = some (.ok (l2, c2, n2)) → 0 < n2) :=
  ⟨fun env cache ticker start_date end_date h =>
    get_prices_empty_no_write env cache ticker start_date end_date h,
   fun fenv menv cache ticker end_date period limit ms c' n h hms =>
    get_financial_metrics_empty_no_write fenv menv cache ticker end_date
      period limit ms c' n h hms,
   fun env cache ticker end_date start_date limit fuel c' n h =>
    get_insider_trades_empty_no_write env cache ticker end_date start_date
      limit fuel c' n h,
   fun env cache ticker end_date start_date limit fuel c' n h =>
    get_company_news_empty_no_write env cache ticker end_date start_date
      limit fuel c' n h⟩

/-- All providers failing for the price chain. -/
def emptyPriceEnv : PriceEnv := ⟨fun _ _ _ => none, fun _ _ _ => none⟩

/-- All providers failing for the metrics chain. -/
def emptyFinnhubEnv : FinnhubMetricsEnv :=
  ⟨none, none, false, .resp 200 [], .resp 200 []⟩

/-- No FMP key configured. -/
def emptyFmpEnv : FmpEnv :=
  ⟨false, .resp 200 [], .resp 200 [], .resp 200 [], .resp 200 [], false,
    false⟩

/-- An insider-trades provider returning an empty page. -/
def emptyTradesEnv : TradesEnv := ⟨fun _ _ => .resp 200 (some [])⟩

/-- A news provider returning an empty page. -/
def emptyNewsEnv : NewsEnv := ⟨fun _ _ => .resp 200 (some [])⟩

/-- Witness for empty_result_never_cached: concrete all-providers-failure
runs of all four getters leave the empty cache empty and retry providers
on the repeat call. -/
theorem empty_result_never_cached_witness :
    (get_prices emptyPriceEnv [] "AAPL" "2024-01-01" "2024-01-10").records
      = [] ∧
    (get_prices emptyPriceEnv [] "AAPL" "2024-01-01" "2024-01-10").cache
      = [] ∧
    0 < (get_prices emptyPriceEnv [] "AAPL" "2024-01-01"
      "2024-01-10").providerCalls ∧
    get_financial_metrics emptyFinnhubEnv emptyFmpEnv [] "AAPL" "2024-06-30"
      "ttm" 10 = .ok ([], [], 1) ∧
    (∃ ms2 c2 n2,
      get_financial_metrics emptyFinnhubEnv emptyFmpEnv [] "AAPL"
        "2024-06-30" "ttm" 10 = .ok (ms2, c2, n2) ∧ 0 < n2) ∧
    get_insider_trades emptyTradesEnv [] "AAPL" "2024-03-01" none 1000 5 =
      some (.ok ([], [], 1)) ∧
    (0 : Nat) < 1 ∧
    get_company_news emptyNewsEnv [] "AAPL" "2024-03-01" none 1000 5 =
      some (.ok ([], [], 1)) ∧
    (0 : Nat) < 1 :=
  ⟨rfl,
   (empty_result_never_cached.1 emptyPriceEnv [] "AAPL" "2024-01-01"
     "2024-01-10" rfl).1,
   (empty_result_never_cached.1 emptyPriceEnv [] "AAPL" "2024-01-01"
     "2024-01-10" rfl).2 emptyPriceEnv,
   rfl,
   (empty_result_never_cached.2.1 emptyFinnhubEnv emptyFmpEnv [] "AAPL"
     "2024-06-30" "ttm" 10 [] [] 1 rfl rfl).2 emptyFinnhubEnv emptyFmpEnv,
   rfl,
   (empty_result_never_cached.2.2.1 emptyTradesEnv [] "AAPL" "2024-03-01"
     none 1000 5 [] 1 rfl).2 emptyTradesEnv 5 [] [] 1 rfl,
   rfl,
   (empty_result_never_cached.2.2.2 emptyNewsEnv [] "AAPL" "2024-03-01"
     none 1000 5 [] 1 rfl).2 emptyNewsEnv 5 [] [] 1 rfl⟩

/-- C2: for each of the four cached getters, once a call has returned a
non-empty result, a second call with identical parameters (identical
deterministic cache key) is served from the cache: it returns the same
records and the same cache and performs zero outbound provider requests,
whatever the providers would now answer. -/
theorem cache_hit_second_call :
    (∀ (env env2 : PriceEnv) (cache : List (String × List Price))
        (ticker start_date end_date : String),
      (get_prices env cache ticker start_date end_date).records ≠ [] →
      get_prices env2 (get_prices env cache ticker start_date end_date).cache
          ticker start_date end_date =
        { records := (get_prices env cache ticker start_date
            end_date).records,
          cache := (get_prices env cache ticker start_date end_date).cache,
          providerCalls := 0 }) ∧
    (∀ (fenv : FinnhubMetricsEnv) (menv : FmpEnv) (cache : MetricsCache)
        (ticker end_date period : String) (limit : Nat)
        (ms : List FinancialMetrics) (c' : MetricsCache) (n : Nat),
      get_financial_metrics fenv menv cache ticker end_date period limit =
        .ok (ms, c', n) → ms ≠ [] →
      ∀ (fenv2 : FinnhubMetricsEnv) (menv2 : FmpEnv),
        get_financial_metrics fenv2 menv2 c' ticker end_date period limit =
          .ok (ms, c', 0)) ∧
    (∀ (env : TradesEnv) (cache : List (String × List InsiderTrade))
        (ticker end_date : String) (start_date : Option String)
        (limit fuel : Nat) (l : List InsiderTrade)
        (c' : List (String × List InsiderTrade)) (n : Nat),
      get_insider_trades env cache ticker end_date start_date limit fuel =
        some (.ok (l, c', n)) → l ≠ [] →
      ∀ (env2 : TradesEnv) (fuel2 : Nat),
        get_insider_trades env2 c' ticker end_date start_date limit fuel2 =
          some (.ok (l, c', 0))) ∧
    (∀ (env : NewsEnv) (cache : List (String × List CompanyNews))
        (ticker end_date : String) (start_date : Option String)
        (limit fuel : Nat) (l : List CompanyNews)
        (c' : List (String × List CompanyNews)) (n : Nat),
      get_company_news env cache ticker end_date start_date limit fuel =
        some (.ok (l, c', n)) → l ≠ [] →
      ∀ (env2 : NewsEnv) (fuel2 : Nat),
        get_company_news env2 c' ticker end_date start_date limit fuel2 =
          some (.ok (l, c', 0))) :=
  ⟨fun env env2 cache ticker start_date end_date h =>
    get_prices_second_call env env2 cache ticker start_date end_date h,
   fun fenv menv cache ticker end_date period limit ms c' n h hms =>
    get_financial_metrics_second_call fenv menv cache ticker end_date period
      limit ms c' n h hms,
   fun env cache ticker end_date start_date limit fuel l c' n h hl =>
    get_insider_trades_second_call env cache ticker end_date start_date
      limit fuel l c' n h hl,
   fun env cache ticker end_date start_date limit fuel l c' n h hl =>
    get_company_news_second_call env cache ticker end_date start_date limit
      fuel l c' n h hl⟩

/-- A Yahoo provider returning one in-window row. -/
def okPriceEnv : PriceEnv :=
  ⟨fun _ _ _ =>
    some [⟨"2024-01-02", some 1, some 2, some 1, some 2, some 100⟩],
   fun _ _ _ => none⟩

/-- A Finnhub metrics environment with one metric present. -/
def c2FinnhubEnv : FinnhubMetricsEnv :=
  ⟨some [("peTTM", .num 10)], none, false, .resp 200 [], .resp 200 []⟩

/-- A news provider returning one short page. -/
def okNewsEnv : NewsEnv :=
  ⟨fun _ _ => .resp 200 (some [⟨"2024-02-20T00:00:00", "n1"⟩])⟩

/-- Witness for cache_hit_second_call: after a concrete non-empty first
call, the repeat call of each getter returns the same records from cache
with zero provider requests. -/
theorem cache_hit_second_call_witness :
    (get_prices okPriceEnv [] "AAPL" "2024-01-01" "2024-01-10").records
      ≠ [] ∧
    get_prices okPriceEnv
        (get_prices okPriceEnv [] "AAPL" "2024-01-01" "2024-01-10").cache
        "AAPL" "2024-01-01" "2024-01-10" =
      { records :=
          (get_prices okPriceEnv [] "AAPL" "2024-01-01"
            "2024-01-10").records,
        cache :=
          (get_prices okPriceEnv [] "AAPL" "2024-01-01" "2024-01-10").cache,
        providerCalls := 0 } ∧
    get_financial_metrics c2FinnhubEnv emptyFmpEnv
        (exceptGetD (get_financial_metrics c2FinnhubEnv emptyFmpEnv []
          "AAPL" "2024-06-30" "ttm" 10) ([], [], 0)).2.1
        "AAPL" "2024-06-30" "ttm" 10 =
      .ok ((exceptGetD (get_financial_metrics c2FinnhubEnv emptyFmpEnv []
          "AAPL" "2024-06-30" "ttm" 10) ([], [], 0)).1,
        (exceptGetD (get_financial_metrics c2FinnhubEnv emptyFmpEnv []
          "AAPL" "2024-06-30" "ttm" 10) ([], [], 0)).2.1, 0) ∧
    get_insider_trades okTradesEnv
        (optExceptGetD (get_insider_trades okTradesEnv [] "AAPL"
          "2024-03-01" none 1000 5) ([], [], 0)).2.1
        "AAPL" "2024-03-01" none 1000 5 =
      some (.ok ((optExceptGetD (get_insider_trades okTradesEnv [] "AAPL"
          "2024-03-01" none 1000 5) ([], [], 0)).1,
        (optExceptGetD (get_insider_trades okTradesEnv [] "AAPL"
          "2024-03-01" none 1000 5) ([], [], 0)).2.1, 0)) ∧
    get_company_news okNewsEnv
        (optExceptGetD (get_company_news okNewsEnv [] "AAPL" "2024-03-01"
          none 1000 5) ([], [], 0)).2.1
        "AAPL" "2024-03-01" none 1000 5 =
      some (.ok ((optExceptGetD (get_company_news okNewsEnv [] "AAPL"
          "2024-03-01" none 1000 5) ([], [], 0)).1,
        (optExceptGetD (get_company_news okNewsEnv [] "AAPL" "2024-03-01"
          none 1000 5) ([], [], 0)).2.1, 0)) :=
  ⟨by decide,
   cache_hit_second_call.1 okPriceEnv okPriceEnv [] "AAPL" "2024-01-01"
     "2024-01-10" (by decide),
   cache_hit_second_call.2.1 c2FinnhubEnv emptyFmpEnv [] "AAPL" "2024-06-30"
     "ttm" 10 _ _ _ rfl (by decide) c2FinnhubEnv emptyFmpEnv,
   cache_hit_second_call.2.2.1 okTradesEnv [] "AAPL" "2024-03-01" none 1000
     5 _ _ _ rfl (by decide) okTradesEnv 5,
   cache_hit_second_call.2.2.2 okNewsEnv [] "AAPL" "2024-03-01" none 1000 5
     _ _ _ rfl (by decide) okNewsEnv 5⟩

/-! ### Signal aggregation (n8n_analyze.py lines 43-49 and 100-131) -/

/-- Python str.upper() (the signals are ASCII).  Defined over the character
list so that concrete instances reduce inside the kernel. -/
def pyUpper (s : String) : String := ⟨s.data.map Char.toUpper⟩

/-- n8n_analyze.py AgentResult: the verdict of one agent. -/
structure AgentResult where
  agent : String
  agent_display_name : String
  signal : String
  confidence : ℚ
  reasoning : Option String
deriving DecidableEq, Repr

/-- Python round(x, 2).  Python rounds binary floats half-to-even; both the
embedded code and the claim formula below use this same idealized decimal
rounding (half rounded up via the floor), so every comparison between them
is unaffected by the choice. -/
def round2 (q : ℚ) : ℚ := ((⌊q * 100 + 1 / 2⌋ : ℤ) : ℚ) / 100

/-- n8n_analyze.py lines 100-131, aggregate_signals: majority vote over the
upper-cased signals; the weight of a BULLISH or BEARISH verdict is its vote
share, the weight of a NEUTRAL verdict is
max(neutral_count, min(bullish_count, bearish_count)) / total; the returned
confidence is the rounded product of the mean confidence and the weight. -/
def aggregate_signals (agent_results : List AgentResult) : String × ℚ :=
  if agent_results.isEmpty then ("NEUTRAL", 0)
  else
    let bullish_count :=
      agent_results.countP (fun r => pyUpper r.signal == "BULLISH")
    let bearish_count :=
      agent_results.countP (fun r => pyUpper r.signal == "BEARISH")
    let neutral_count :=
      agent_results.countP (fun r => pyUpper r.signal == "NEUTRAL")
    let total := agent_results.length
    let sw : String × ℚ :=
      if bullish_count > bearish_count ∧ bullish_count > neutral_count then
        ("BULLISH", (bullish_count : ℚ) / (total : ℚ))
      else if bearish_count > bullish_count ∧ bearish_count > neutral_count then
        ("BEARISH", (bearish_count : ℚ) / (total : ℚ))
      else
        ("NEUTRAL",
          ((max neutral_count (min bullish_count bearish_count) : Nat) : ℚ) /
            (total : ℚ))
    let avg_confidence :=
      (agent_results.map (fun r => r.confidence)).sum / (total : ℚ)
    (sw.1, round2 (avg_confidence * sw.2))

/-- The aggregation rule in the words of claim C10: the vote count of the
chosen signal is the weight numerator in every branch, including
NEUTRAL. -/
def claimAggregate (agent_results : List AgentResult) : String × ℚ :=
  if agent_results.isEmpty then ("NEUTRAL", 0)
  else
    let b := agent_results.countP (fun r => pyUpper r.signal == "BULLISH")
    let r := agent_results.countP (fun r => pyUpper r.signal == "BEARISH")
    let n := agent_results.countP (fun r => pyUpper r.signal == "NEUTRAL")
    let total := agent_results.length
    let mean := (agent_results.map (fun x => x.confidence)).sum / (total : ℚ)
    if b > r ∧ b > n then ("BULLISH", round2 (mean * ((b : ℚ) / (total : ℚ))))
    else if r > b ∧ r > n then
      ("BEARISH", round2 (mean * ((r : ℚ) / (total : ℚ))))
    else ("NEUTRAL", round2 (mean * ((n : ℚ) / (total : ℚ))))

/-- Two bullish and two bearish votes at confidence 100: the code returns
confidence 50 (weight max(0, min(2, 2)) / 4), the claim formula returns 0
(weight neutral_count / total = 0), refuting C10 as stated. -/
def tieResults : List AgentResult :=
  [⟨"a", "A", "BULLISH", 100, none⟩, ⟨"b", "B", "BULLISH", 100, none⟩,
   ⟨"c", "C", "BEARISH", 100, none⟩, ⟨"d", "D", "BEARISH", 100, none⟩]

/-- Counterexample to C10: on a two-two tie the returned confidence is not
round(mean_confidence * chosen_count / total, 2). -/
theorem aggregate_confidence_tie_mismatch :
    aggregate_signals tieResults = ("NEUTRAL", 50) ∧
    claimAggregate tieResults = ("NEUTRAL", 0) ∧
    aggregate_signals tieResults ≠ claimAggregate tieResults := by
  have h1 : aggregate_signals tieResults = ("NEUTRAL", 50) := by
    simp +decide only [aggregate_signals, tieResults, List.countP_cons,
      List.countP_nil, List.isEmpty_cons, List.map_cons, List.map_nil,
      List.sum_cons, List.sum_nil, List.length_cons, List.length_nil]
    norm_num [round2, Int.floor_eq_iff]
  have h2 : claimAggregate tieResults = ("NEUTRAL", 0) := by
    simp +decide only [claimAggregate, tieResults, List.countP_cons,
      List.countP_nil, List.isEmpty_cons, List.map_cons, List.map_nil,
      List.sum_cons, List.sum_nil, List.length_cons, List.length_nil]
    norm_num [round2, Int.floor_eq_iff]
  refine ⟨h1, h2, ?_⟩
  rw [h1, h2]
  intro hcontra
  have h50 : (50 : ℚ) = 0 := congrArg Prod.snd hcontra
  norm_num at h50

/-- C10 as amended: empty input yields ("NEUTRAL", 0); otherwise the signal
is BULLISH iff bullish strictly beats both other counts, BEARISH iff
bearish strictly beats both other counts, NEUTRAL otherwise; the confidence
is round2 of mean confidence times the chosen count over total, where the
count chosen in the NEUTRAL case is max(neutral, min(bullish, bearish)). -/
theorem aggregate_signals_amended :
    aggregate_signals [] = ("NEUTRAL", 0) ∧
    ∀ l : List AgentResult, l ≠ [] →
      ((aggregate_signals l).1 = "BULLISH" ↔
        l.countP (fun r => pyUpper r.signal == "BULLISH") >
            l.countP (fun r => pyUpper r.signal == "BEARISH") ∧
          l.countP (fun r => pyUpper r.signal == "BULLISH") >
            l.countP (fun r => pyUpper r.signal == "NEUTRAL")) ∧
      ((aggregate_signals l).1 = "BEARISH" ↔
        l.countP (fun r => pyUpper r.signal == "BEARISH") >
            l.countP (fun r => pyUpper r.signal == "BULLISH") ∧
          l.countP (fun r => pyUpper r.signal == "BEARISH") >
            l.countP (fun r => pyUpper r.signal == "NEUTRAL")) ∧
      ((aggregate_signals l).1 = "NEUTRAL" ↔
        ¬(l.countP (fun r => pyUpper r.signal == "BULLISH") >
              l.countP (fun r => pyUpper r.signal == "BEARISH") ∧
            l.countP (fun r => pyUpper r.signal == "BULLISH") >
              l.countP (fun r => pyUpper r.signal == "NEUTRAL")) ∧
        ¬(l.countP (fun r => pyUpper r.signal == "BEARISH") >
              l.countP (fun r => pyUpper r.signal == "BULLISH") ∧
            l.countP (fun r => pyUpper r.signal == "BEARISH") >
              l.countP (fun r => pyUpper r.signal == "NEUTRAL"))) ∧
      (aggregate_signals l).2 =
        round2 ((l.map (fun x => x.confidence)).sum / (l.length : ℚ) *
          (((if l.countP (fun r => pyUpper r.signal == "BULLISH") >
                  l.countP (fun r => pyUpper r.signal == "BEARISH") ∧
                l.countP (fun r => pyUpper r.signal == "BULLISH") >
                  l.countP (fun r => pyUpper r.signal == "NEUTRAL") then
              l.countP (fun r => pyUpper r.signal == "BULLISH")
            else if l.countP (fun r => pyUpper r.signal == "BEARISH") >
                  l.countP (fun r => pyUpper r.signal == "BULLISH") ∧
                l.countP (fun r => pyUpper r.signal == "BEARISH") >
                  l.countP (fun r => pyUpper r.signal == "NEUTRAL") then
              l.countP (fun r => pyUpper r.signal == "BEARISH")
            else
              max (l.countP (fun r => pyUpper r.signal == "NEUTRAL"))
                (min (l.countP (fun r => pyUpper r.signal == "BULLISH"))
                  (l.countP (fun r => pyUpper r.signal == "BEARISH"))) :
              Nat) : ℚ) / (l.length : ℚ))) := by
  refine ⟨by simp [aggregate_signals], ?_⟩
  intro l hne
  have hni : l.isEmpty = false := by
    cases l with
    | nil => exact absurd rfl hne
    | cons a t => rfl
  simp only [aggregate_signals, hni, Bool.false_eq_true, if_false]
  by_cases hb : l.countP (fun r => pyUpper r.signal == "BULLISH") >
      l.countP (fun r => pyUpper r.signal == "BEARISH") ∧
    l.countP (fun r => pyUpper r.signal == "BULLISH") >
      l.countP (fun r => pyUpper r.signal == "NEUTRAL")
  · have hnr : ¬(l.countP (fun r => pyUpper r.signal == "BEARISH") >
        l.countP (fun r => pyUpper r.signal == "BULLISH") ∧
      l.countP (fun r => pyUpper r.signal == "BEARISH") >
        l.countP (fun r => pyUpper r.signal == "NEUTRAL")) := by
      intro hr; exact absurd hb.1 (by omega)
    simp only [if_pos hb]
    refine ⟨by simp [hb], ?_, ?_, trivial⟩
    · constructor
      · intro hs; exact absurd hs (by decide)
      · intro hr; exact absurd hr hnr
    · constructor
      · intro hs; exact absurd hs (by decide)
      · intro hn; exact absurd hb hn.1
  · simp only [if_neg hb]
    by_cases hr : l.countP (fun r => pyUpper r.signal == "BEARISH") >
        l.countP (fun r => pyUpper r.signal == "BULLISH") ∧
      l.countP (fun r => pyUpper r.signal == "BEARISH") >
        l.countP (fun r => pyUpper r.signal == "NEUTRAL")
    · simp only [if_pos hr]
      refine ⟨?_, by simp [hr], ?_, trivial⟩
      · constructor
        · intro hs; exact absurd hs (by decide)
        · intro hbb; exact absurd hbb hb
      · constructor
        · intro hs; exact absurd hs (by decide)
        · intro hn; exact absurd hr hn.2
    · simp only [if_neg hr]
      refine ⟨?_, ?_, by simp [hb, hr], trivial⟩
      · constructor
        · intro hs; exact absurd hs (by decide)
        · intro hbb; exact absurd hbb hb
      · constructor
        · intro hs; exact absurd hs (by decide)
        · intro hrr; exact absurd hrr hr

/-- Two bullish results and one neutral, used to witness the amended
aggregation theorem. -/
def demoResults : List AgentResult :=
  [⟨"warren_buffett", "Warren Buffett", "bullish", 80, none⟩,
   ⟨"ben_graham", "Ben Graham", "BULLISH", 60, none⟩,
   ⟨"technical_analyst", "Technical Analyst", "neutral", 50, none⟩]

/-- Witness for aggregate_signals_amended on demoResults. -/
theorem aggregate_signals_amended_witness :
    demoResults ≠ [] ∧
    ((aggregate_signals demoResults).1 = "BULLISH" ↔
      demoResults.countP (fun r => pyUpper r.signal == "BULLISH") >
          demoResults.countP (fun r => pyUpper r.signal == "BEARISH") ∧
        demoResults.countP (fun r => pyUpper r.signal == "BULLISH") >
          demoResults.countP (fun r => pyUpper r.signal == "NEUTRAL")) :=
  ⟨by decide, (aggregate_signals_amended.2 demoResults (by decide)).1⟩

end HedgeFund
